import Mathlib

/-!
# Verification of the cf-scripts recipe migration core

Shallow embedding of four source files of the `cf-scripts` repository:

* `conda_forge_tick/executors.py` — the reentrant `DaskRLock`;
* `conda_forge_tick/migrators/cstdlib.py` — the line-oriented stdlib patcher;
* `conda_forge_tick/migrators/version.py` — the v1 version/hash migration;
* `conda_forge_tick/update_recipe/v2/version.py` — the v2 version updater.

Python dictionaries are modelled as association lists with insertion order
(`dictLookup` finds the first binding, `dictSet` updates in place or appends,
which matches CPython dict semantics).  Python regular expressions used by the
code are embedded as deterministic character-level matchers, one per pattern.
Network access (`hash_url`) and functions of the repository that are not part
of the given sources (`gen_transformed_urls`, yaml and jinja helpers) are
passed in as explicit function parameters or modelled from the spec, as
flagged by their doc comments.
-/

set_option autoImplicit false

/-! ## §0 Basic utilities: Python-flavoured characters, lists, dictionaries -/

/-- Python `\s` character class: space, tab, newline, carriage return,
form feed, vertical tab. -/
def isPySpace (c : Char) : Bool :=
  c = ' ' || c = '\t' || c = '\n' || c = '\r' || c = '\x0c' || c = '\x0b'

/-- Python `\w` character class (ASCII flavour): letters, digits, underscore. -/
def isPyWord (c : Char) : Bool :=
  (c ≥ 'a' && c ≤ 'z') || (c ≥ 'A' && c ≤ 'Z') || (c ≥ '0' && c ≤ '9') || c = '_'

def isAsciiLetter (c : Char) : Bool :=
  (c ≥ 'a' && c ≤ 'z') || (c ≥ 'A' && c ≤ 'Z')

def isAsciiDigit (c : Char) : Bool :=
  c ≥ '0' && c ≤ '9'

/-- Consume the exact character list `pat` from the front of `cs`. -/
def eatToken : List Char → List Char → Option (List Char)
  | [], cs => some cs
  | _ :: _, [] => none
  | p :: ps, c :: cs => if p = c then eatToken ps cs else none

/-- Consume a string literal from the front of `cs`. -/
def eatStr (s : String) (cs : List Char) : Option (List Char) :=
  eatToken s.toList cs

/-- Greedily drop `\s*`. -/
def dropPySpaces : List Char → List Char
  | [] => []
  | c :: cs => if isPySpace c then dropPySpaces cs else c :: cs

/-- `p` holds of some suffix of the list (the Python `re.search` driver:
try the pattern anchored at every start position, left to right). -/
def anySuffix (p : List Char → Bool) : List Char → Bool
  | [] => p []
  | c :: cs => p (c :: cs) || anySuffix p cs

/-- Boolean "starts with" on character lists. -/
def leadsWith : List Char → List Char → Bool
  | [], _ => true
  | _ :: _, [] => false
  | p :: ps, c :: cs => p = c && leadsWith ps cs

/-- Substring containment on character lists. -/
def containsL (needle hay : List Char) : Bool :=
  anySuffix (leadsWith needle) hay

/-- Substring containment on strings (Python `needle in hay`). -/
def strContains (needle hay : String) : Bool :=
  containsL needle.toList hay.toList

/-- Split `hay` at the first occurrence of `needle`:
returns `(before, after)` with `hay = before ++ needle ++ after`. -/
def splitAtFirst (needle : List Char) : List Char → Option (List Char × List Char)
  | [] => if needle = [] then some ([], []) else none
  | c :: cs =>
    if leadsWith needle (c :: cs) then
      some ([], (c :: cs).drop needle.length)
    else
      match splitAtFirst needle cs with
      | some (pre, post) => some (c :: pre, post)
      | none => none

/-- Python association-list dictionary: ordered, unique keys assumed. -/
abbrev PyDict (α : Type) := List (String × α)

/-- First-match lookup (Python `dct[k]` / `dct.get(k)`). -/
def dictLookup {α : Type} (d : PyDict α) (k : String) : Option α :=
  match d with
  | [] => none
  | (k', v) :: rest => if k' = k then some v else dictLookup rest k

/-- Python `k in dct`. -/
def dictHas {α : Type} (d : PyDict α) (k : String) : Bool :=
  (dictLookup d k).isSome

/-- Python `dct[k] = v`: replace in place if the key exists, else append. -/
def dictSet {α : Type} (d : PyDict α) (k : String) (v : α) : PyDict α :=
  match d with
  | [] => [(k, v)]
  | (k', v') :: rest =>
    if k' = k then (k', v) :: rest else (k', v') :: dictSet rest k v

/-- Python `del dct[k]` (no error when missing: used where the code checks
`if key in source` first). -/
def dictDel {α : Type} (d : PyDict α) (k : String) : PyDict α :=
  match d with
  | [] => []
  | (k', v') :: rest =>
    if k' = k then rest else (k', v') :: dictDel rest k

/-- Deduplicate preserving first occurrence.  Python `set(...)` iteration
order is unspecified; the embedding fixes insertion order, which is the only
part of the behaviour the theorems below depend on. -/
def dedupAux (seen : List (Option String)) : List (Option String) → List (Option String)
  | [] => []
  | x :: xs =>
    if seen.contains x then dedupAux seen xs else x :: dedupAux (x :: seen) xs

def dedup (l : List (Option String)) : List (Option String) :=
  dedupAux [] l

/-! ## §1 `executors.py`: the reentrant `DaskRLock` -/

/-- State of one `DaskRLock` object together with its underlying
`distributed.Lock`.  `rcount = none` models the `_rcount` attribute not yet
existing (before the first `acquire`), `rdata` models the `_rdata` attribute,
and `baseHeld` models whether the underlying (non-reentrant) dask lock is
held by this owner. -/
structure DaskRLock where
  rcount : Option Nat
  rdata : Option Bool
  baseHeld : Bool
  deriving Repr, DecidableEq

/-- A fresh `DaskRLock`: no `_rcount`/`_rdata` attributes, underlying lock
not held. -/
def DaskRLock.init : DaskRLock :=
  { rcount := none, rdata := none, baseHeld := false }

/-- `DaskRLock.acquire`, from `executors.py`: materialize `_rcount` at 0 if
absent, increment it, and take the underlying lock (blocking, no timeout —
which returns `True`) exactly when the new count is 1. -/
def DaskRLock.acquire (l : DaskRLock) : DaskRLock × Option Bool :=
  let c0 := l.rcount.getD 0
  let c1 := c0 + 1
  if c1 = 1 then
    let l' := { l with rcount := some c1, baseHeld := true, rdata := some true }
    (l', l'.rdata)
  else
    ({ l with rcount := some c1 }, l.rdata)

/-- `DaskRLock.release`, from `executors.py`: raise `RuntimeError` when
`_rcount` is absent or 0; otherwise decrement, and release the underlying
lock (deleting `_rdata`) exactly when the count returns to 0. -/
def DaskRLock.release (l : DaskRLock) : Except String DaskRLock :=
  match l.rcount with
  | none => .error "Lock not acquired so cannot be released!"
  | some 0 => .error "Lock not acquired so cannot be released!"
  | some (n + 1) =>
    if n = 0 then
      .ok { l with rcount := some 0, rdata := none, baseHeld := false }
    else
      .ok { l with rcount := some (n + 1 - 1) }

/-! ## §2 `migrators/cstdlib.py`: patterns, scanner, `_process_section` -/

/-- `{` as a character. -/
def lbr : Char := Char.ofNat 123

/-- `}` as a character. -/
def rbr : Char := Char.ofNat 125

/-- `'` or `"`, the regex class `["']`. -/
def isQuote (c : Char) : Bool :=
  c = '"' || c = Char.ofNat 39

/-- `re.match(r"^\s*KEY:.*", line)` as a Boolean. -/
def secHeaderMatch (key : String) (line : String) : Bool :=
  (eatStr (key ++ ":") (dropPySpaces line.toList)).isSome

/-- `keys_after_nonreq_build` from `_process_section`, with the
`ignore_run_exports(_from)?` alternative expanded to its two words. -/
def keys_after_nonreq_build : List String :=
  ["binary_relocation", "force_ignore_keys", "ignore_run_exports",
   "ignore_run_exports_from", "missing_dso_whitelist", "noarch", "number",
   "run_exports", "script", "skip"]

/-- `re.match(rf"^\s*({'|'.join(keys_after_nonreq_build)}):.*", line)`. -/
def nonreqKeyMatch (line : String) : Bool :=
  let cs := dropPySpaces line.toList
  keys_after_nonreq_build.any (fun k => (eatStr (k ++ ":") cs).isSome)

/-- Anchored match of the compiler-declaration regexes of `cstdlib.py`
(`rgx_idt ++ rgx_pre ++ LANG ++ rgx_post ++ rgx_sel` for `LANG` drawn from
`langs`): returns the `indent` and optional `selector` groups.  The selector
group is `(?P<selector>\s*\#\s+\[[\w\s()<>!=.,\-'"]+\])?`; its text includes
the leading whitespace, exactly as the Python group does. -/
def matchCompilerAux (langs : List String) (cs : List Char) :
    Option (String × Option String) :=
  let indent := cs.takeWhile isPySpace
  match eatToken ['-'] (cs.dropWhile isPySpace) with
  | none => none
  | some cs1 =>
  match eatToken [lbr, lbr] (dropPySpaces cs1) with
  | none => none
  | some cs2 =>
  match eatStr "compiler(" (dropPySpaces cs2) with
  | none => none
  | some cs3 =>
  match cs3 with
  | [] => none
  | q1 :: cs4 =>
    if isQuote q1 then
      let lang := cs4.takeWhile (fun c => !isQuote c)
      if langs.contains (String.mk lang) then
        match cs4.dropWhile (fun c => !isQuote c) with
        | [] => none
        | _ :: cs5 =>
        match eatToken [')'] cs5 with
        | none => none
        | some cs6 =>
        match eatToken [rbr, rbr] (dropPySpaces cs6) with
        | none => none
        | some cs7 =>
          -- optional selector group
          let ws := cs7.takeWhile isPySpace
          match eatToken ['#'] (cs7.dropWhile isPySpace) with
          | none => some (String.mk indent, none)
          | some cs8 =>
            let ws1 := cs8.takeWhile isPySpace
            if ws1.isEmpty then some (String.mk indent, none)
            else
              match eatToken ['['] (cs8.dropWhile isPySpace) with
              | none => some (String.mk indent, none)
              | some cs9 =>
                let isSelChar : Char → Bool := fun c =>
                  isPyWord c || isPySpace c || c = '(' || c = ')' || c = '<' ||
                  c = '>' || c = '!' || c = '=' || c = '.' || c = ',' ||
                  c = '-' || isQuote c
                let body := cs9.takeWhile isSelChar
                if body.isEmpty then some (String.mk indent, none)
                else
                  match eatToken [']'] (cs9.dropWhile isSelChar) with
                  | none => some (String.mk indent, none)
                  | some _ =>
                    some (String.mk indent,
                      some (String.mk (ws ++ ['#'] ++ ws1 ++ ['['] ++ body ++ [']'])))
      else none
    else none

/-- `pat.search(line)` for a compiler-declaration pattern. -/
def compilerSearch (langs : List String) (line : String) : Bool :=
  anySuffix (fun cs => (matchCompilerAux langs cs).isSome) line.toList

/-- `pat.match(line)` for a compiler-declaration pattern. -/
def compilerMatch (langs : List String) (line : String) :
    Option (String × Option String) :=
  matchCompilerAux langs line.toList

/-- The language alternatives of `pat_compiler_c`. -/
def langsC : List String := ["c"]

/-- The language alternatives of `pat_compiler_m2c`. -/
def langsM2c : List String := ["m2w64_c"]

/-- The language alternatives of `pat_compiler_other`:
`(m2w64_)?(cxx|fortran)`. -/
def langsOther : List String := ["cxx", "fortran", "m2w64_cxx", "m2w64_fortran"]

/-- The language alternatives of `pat_compiler`: `(m2w64_)?(c|cxx|fortran)`. -/
def langsAny : List String :=
  ["c", "cxx", "fortran", "m2w64_c", "m2w64_cxx", "m2w64_fortran"]

/-- `pat_stub.search(line)`: the regex `(c|cxx|fortran)_compiler_stub`
searches successfully iff one of its three literal alternatives occurs. -/
def pat_stub_search (line : String) : Bool :=
  strContains "c_compiler_stub" line || strContains "cxx_compiler_stub" line ||
    strContains "fortran_compiler_stub" line

/-- Anchored attempt of `\{\{\s*stdlib\(["']c["']\)\s*\}\}`. -/
def stdlibAt (cs : List Char) : Bool :=
  (do
    let cs ← eatToken [lbr, lbr] cs
    let cs ← eatStr "stdlib(" (dropPySpaces cs)
    let cs ← match cs with
             | c :: rest => if isQuote c then some rest else none
             | [] => none
    let cs ← eatToken ['c'] cs
    let cs ← match cs with
             | c :: rest => if isQuote c then some rest else none
             | [] => none
    let cs ← eatToken [')'] cs
    let cs ← eatToken [rbr, rbr] (dropPySpaces cs)
    pure cs).isSome

/-- `pat_stdlib.search(line)` (the surrounding `.*` of the source pattern
only widen the search, so the embedded pattern is the core). -/
def pat_stdlib_search (line : String) : Bool :=
  anySuffix stdlibAt line.toList

/-- `=?` — consume one optional `=`. -/
def eatOptEq : List Char → List Char
  | '=' :: cs => cs
  | cs => cs

/-- Anchored attempt of `- sysroot_linux-64\s*=?=?2\.17`. -/
def sysrootAt (cs : List Char) : Bool :=
  (do
    let cs ← eatStr "- sysroot_linux-64" cs
    let cs := eatOptEq (eatOptEq (dropPySpaces cs))
    let cs ← eatStr "2.17" cs
    pure cs).isSome

/-- `pat_sysroot_217.search(line)`. -/
def pat_sysroot_search (line : String) : Bool :=
  anySuffix sysrootAt line.toList

/-- The per-section scan state of `_process_section`'s single left-to-right
pass (all `line_*` indices start at 0 = "absent", as in the source). -/
structure ScanState where
  lineBuild : Nat
  lineCompilerC : Nat
  lineCompilerM2c : Nat
  lineCompilerOther : Nat
  lineHost : Nat
  lineRun : Nat
  lineConstrain : Nat
  lineTest : Nat
  indentC : String
  indentM2c : String
  indentOther : String
  selectorC : String
  selectorM2c : String
  selectorOther : String
  lastWasBuild : Bool
  deriving Repr, DecidableEq

def ScanState.init : ScanState :=
  ⟨0, 0, 0, 0, 0, 0, 0, 0, "", "", "", "", "", "", false⟩

/-- One iteration of the scanner's `for i, line in enumerate(lines)` loop
(the `elif` chain of `_process_section`).  The returned Boolean is the
`break` flag raised by a `test:` header.  The compiler branches use
`pat.search` to decide and `pat.match` to extract groups; a line where the
search succeeds but the anchored match fails would raise `AttributeError`
in Python, which the embedding surfaces as an error. -/
def scanStep (i : Nat) (line : String) (st : ScanState) :
    Except String (ScanState × Bool) :=
  if secHeaderMatch "build" line then
    .ok ({ st with lastWasBuild := true, lineBuild := i }, false)
  else if compilerSearch langsC line then
    match compilerMatch langsC line with
    | some (ind, sel) =>
      .ok ({ st with lineCompilerC := i, indentC := ind,
                     selectorC := sel.getD "" }, false)
    | none => .error "AttributeError: NoneType has no attribute group"
  else if compilerSearch langsM2c line then
    match compilerMatch langsM2c line with
    | some (ind, sel) =>
      .ok ({ st with lineCompilerM2c := i, indentM2c := ind,
                     selectorM2c := sel.getD "" }, false)
    | none => .error "AttributeError: NoneType has no attribute group"
  else if compilerSearch langsOther line then
    match compilerMatch langsOther line with
    | some (ind, sel) =>
      .ok ({ st with lineCompilerOther := i, indentOther := ind,
                     selectorOther := sel.getD "" }, false)
    | none => .error "AttributeError: NoneType has no attribute group"
  else if secHeaderMatch "host" line then
    .ok ({ st with lineHost := i }, false)
  else if secHeaderMatch "run" line then
    .ok ({ st with lineRun := i }, false)
  else if secHeaderMatch "run_constrained" line then
    .ok ({ st with lineConstrain := i }, false)
  else if secHeaderMatch "test" line then
    .ok ({ st with lineTest := i }, true)
  else if st.lastWasBuild then
    if nonreqKeyMatch line then
      .ok ({ st with lineBuild := 0, lastWasBuild := false }, false)
    else
      .ok ({ st with lastWasBuild := false }, false)
  else
    .ok (st, false)

/-- Run the scanner from line index `i`. -/
def scanFrom (i : Nat) (st : ScanState) : List String → Except String ScanState
  | [] => .ok st
  | l :: rest => do
    let (st', stop) ← scanStep i l st
    if stop then .ok st' else scanFrom (i + 1) st' rest

/-- The full scanning pass of `_process_section` over a section's lines. -/
def scanSection (lines : List String) : Except String ScanState :=
  scanFrom 0 ScanState.init lines

/-- First non-zero element (the Python `a or b or c` idiom on ints),
0 when all are zero. -/
def firstNonzero : List Nat → Nat
  | [] => 0
  | x :: xs => if x ≠ 0 then x else firstNonzero xs

/-- Python `a or b` on strings (empty string is falsy). -/
def pyOrStr (a b : String) : String :=
  if a = "" then b else a

/-- Python slice `l[a:b]` with a possibly negative stop. -/
def pySlice (l : List String) (a : Nat) (b : Int) : List String :=
  let stop : Nat := if b < 0 then ((l.length : Int) + b).toNat else b.toNat
  (l.take stop).drop a

/-- Python slice-splice insertion `l[:i] + [x] + l[i:]`. -/
def insertAt (l : List String) (i : Nat) (x : String) : List String :=
  l.take i ++ [x] ++ l.drop i

/-- Whether a line is empty after `str.strip()`. -/
def stripEmpty (l : String) : Bool :=
  l.toList.all isPySpace

/-- Modelled from the spec: `_replacer` is imported from
`conda_forge_tick/migrators/libboost.py`, which is not among the given
sources.  Both call sites in `cstdlib.py` pass the pattern
`sysroot_linux-64.*`; per the spec (§4.2) the helper replaces the first
occurrence (under `max_times=1`) with the new declaration and deletes the
remaining occurrences.  The model applies `re.sub` span semantics per line:
the matched span — from the first occurrence of the literal
`sysroot_linux-64` to the end of the line's content (`.` does not cross a
newline) — is replaced by `to_that` while the budget lasts, and a line that
is whitespace-only after replacement is dropped. -/
def replacerLine (to_that : String) (l : String) : String :=
  match splitAtFirst "sysroot_linux-64".toList l.toList with
  | none => l
  | some (pre, _) =>
    String.mk pre ++ to_that ++ (if l.toList.getLast? = some '\n' then "\n" else "")

/-- Modelled from the spec: the line loop of `_replacer` (see
`replacerLine`); `budget = none` means no `max_times` bound. -/
def replacerAux (to_that : String) (budget : Option Nat) :
    List String → List String
  | [] => []
  | l :: rest =>
    if strContains "sysroot_linux-64" l && budget ≠ some 0 then
      let l' := replacerLine to_that l
      let budget' := budget.map (fun b => b - 1)
      if stripEmpty l' then replacerAux to_that budget' rest
      else l' :: replacerAux to_that budget' rest
    else
      l :: replacerAux to_that budget rest

/-- Modelled from the spec: `_replacer(lines, "sysroot_linux-64.*", to_that,
max_times)`. -/
def replacer (lines : List String) (to_that : String) (maxTimes : Option Nat) :
    List String :=
  replacerAux to_that maxTimes lines

/-- The parsed requirement lists that `_process_section` reads from
`attrs["meta_yaml"]` (entries may be `None` in Python, hence `Option`). -/
structure Reqs where
  build : List (Option String)
  deriving Repr, DecidableEq

/-- One entry of `attrs["meta_yaml"]["outputs"]`. -/
structure OutputEntry where
  name : String
  requirements : Reqs
  deriving Repr, DecidableEq

/-- The `attrs["meta_yaml"]` view used by `_process_section`. -/
structure MetaYamlAttrs where
  outputs : List OutputEntry
  requirements : Reqs
  deriving Repr, DecidableEq

/-- The characters of `{{ stdlib("c") }}`. -/
def stdlibJinjaChars : List Char :=
  [lbr, lbr, ' ', 's', 't', 'd', 'l', 'i', 'b', '(', '"', 'c', '"', ')', ' ',
   rbr, rbr]

/-- The replacement text `'{{ stdlib("c") }}'` of the sysroot branch. -/
def stdlibJinja : String :=
  String.mk stdlibJinjaChars

/-- The line inserted by the patcher (`'- {{ stdlib("c") }}'`). -/
def stdlibDecl : String :=
  String.mk ('-' :: ' ' :: stdlibJinjaChars)

/-- `_process_section(name, attrs, lines)` from `cstdlib.py`, faithful to the
source: decide `needs_stdlib` from the parsed requirements and the scanned
build section, then either rewrite the obsolete sysroot pin, or insert the
stdlib declaration line(s) after the compiler line(s).  Python exceptions
(`RuntimeError`, `IndexError`, `AttributeError`) are `.error` values. -/
def process_section (name : String) (attrs : MetaYamlAttrs)
    (lines : List String) : Except String (List String × Bool) := do
  let reqs ←
    if name = "global" then
      .ok attrs.requirements
    else
      match attrs.outputs.filter (fun o => o.name = name) with
      | [] => .error ("Could not find output " ++ name ++ "!")
      | o :: _ => .ok o.requirements
  let build_reqs := reqs.build
  let global_build_reqs := attrs.requirements.build
  let needs0 := build_reqs.any (fun x => pat_stub_search (x.getD ""))
  let needs1 := needs0 ||
    (build_reqs.isEmpty &&
      global_build_reqs.any (fun x => pat_stub_search (x.getD "")))
  let st ← scanSection lines
  let needs2 := needs1 ||
    (st.lineBuild ≠ 0 &&
      (pySlice lines st.lineBuild
        (let s := firstNonzero [st.lineHost, st.lineRun, st.lineConstrain,
                                st.lineTest]
         if s = 0 then (-1 : Int) else (s : Int))).any
        (fun l => compilerSearch langsAny l))
  if ¬ needs2 then
    if lines.any pat_sysroot_search then
      let lines1 := replacer lines stdlibJinja (some 1)
      let lines2 := replacer lines1 "" none
      return (lines2, true)
    else
      return (lines, false)
  else
    let line_compiler := firstNonzero [st.lineCompilerC, st.lineCompilerM2c,
                                       st.lineCompilerOther]
    let indent0 := pyOrStr (pyOrStr st.indentC st.indentM2c) st.indentOther
    let selector0 := pyOrStr (pyOrStr st.selectorC st.selectorM2c) st.selectorOther
    let indent ←
      if indent0 = "" then
        match lines.head? with
        | none => .error "IndexError: list index out of range"
        | some l0 =>
          .ok (String.mk
            (((l0.toList.dropLast).takeWhile
                (fun c => isPySpace c || c = '-')).map
              (fun c => if c = '-' then ' ' else c)) ++ "    ")
      else
        .ok indent0
    let selector1 := if selector0 = "" then "" else "  " ++ selector0
    let to_insert0 := indent ++ stdlibDecl ++ selector1 ++ "\n"
    let to_insert :=
      if st.lineBuild = 0 then String.mk indent.toList.dropLast.dropLast ++ "build:\n" ++ to_insert0
      else to_insert0
    let line_insert0 := firstNonzero [st.lineHost, st.lineRun, st.lineConstrain,
                                      st.lineTest]
    if line_insert0 = 0 then
      .error "Do not know where to insert build section!"
    else
      let line_insert :=
        if line_compiler ≠ 0 then line_compiler + 1 else line_insert0
      let lines1 := insertAt lines line_insert to_insert
      let lines2 :=
        if st.lineCompilerC ≠ 0 && st.lineCompilerM2c ≠ 0 then
          let sel_m2c :=
            if st.selectorM2c = "" then "" else "        " ++ st.selectorM2c
          let ti2 := indent ++ stdlibDecl ++ sel_m2c ++ "\n"
          let li2 := st.lineCompilerM2c + 1 +
            (if st.lineCompilerC < st.lineCompilerM2c then 1 else 0)
          insertAt lines1 li2 ti2
        else lines1
      let cbc := lines2.any pat_sysroot_search
      let lines3 := replacer lines2 "" none
      return (lines3, cbc)

/-- `StdlibMigrator.filter` from `cstdlib.py`, applied to the document's
lines (`attrs["raw_meta_yaml"].splitlines()`): `True` means "do not
migrate". -/
def stdlib_filter (lines : List String) : Bool :=
  let already_migrated := lines.any pat_stdlib_search
  let has_compiler := lines.any (fun l => compilerSearch langsAny l)
  let has_sysroot := lines.any pat_sysroot_search
  already_migrated || !(has_compiler || has_sysroot)

/-! ## §3 `migrators/version.py`: the v1 version/hash resolution engine -/

/-- A value in a recipe `source` mapping: the `url` field may be a single
string or an ordered list of alternates; hash fields are strings. -/
inductive MVal where
  | s (v : String)
  | ls (vs : List String)
  deriving Repr, DecidableEq

/-- One source entry. -/
abbrev Src := PyDict MVal

/-- The document's `jinja2_vars` table (values the code reads are strings). -/
abbrev Jinja2Vars := PyDict String

/-- Modelled from the spec: `CONDA_SELECTOR` is imported from
`conda_forge_tick/recipe_parser`, which is not among the given sources; it is
the separator joining a base key name with its platform selector qualifier
("a selector-qualified key and its unqualified counterpart may coexist",
spec §3). -/
def CONDA_SELECTOR : String := "__###conda-selector###__"

/-- `s.split(sep)[0]`: the part before the first occurrence of `sep`
(the whole string when `sep` does not occur). -/
def splitHead (sep s : String) : String :=
  match splitAtFirst sep.toList s.toList with
  | none => s
  | some (pre, _) => String.mk pre

/-- `s.split(sep)[1]`: the part between the first and second occurrence of
`sep` (used only under a `sep in s` guard in the source). -/
def splitSecond (sep s : String) : String :=
  match splitAtFirst sep.toList s.toList with
  | none => ""
  | some (_, post) => splitHead sep (String.mk post)

/-- `_gen_key_selector(dct, key)`: the keys of `dct` equal to `key` or
selector-qualified versions of it, in insertion order. -/
def gen_key_selector {α : Type} (d : PyDict α) (key : String) : List String :=
  (d.map Prod.fst).filter (fun k =>
    k = key || (strContains CONDA_SELECTOR k && splitHead CONDA_SELECTOR k = key))

/-- `_compile_all_selectors(cmeta, src)`: `None` plus every selector
qualifier appearing in `jinja2_vars` keys or in `src` keys, as a Python
`set` (deduplicated; iteration order modelled as insertion order). -/
def compile_all_selectors (vars : Jinja2Vars) (src : Src) : List (Option String) :=
  dedup (none ::
    ((vars.map Prod.fst).filterMap (fun k =>
        if strContains CONDA_SELECTOR k then some (some (splitSecond CONDA_SELECTOR k))
        else none) ++
     (src.map Prod.fst).filterMap (fun k =>
        if strContains CONDA_SELECTOR k then some (some (splitSecond CONDA_SELECTOR k))
        else none)))

/-- Anchored attempt of `JINJA2_VAR_RE` =
`'{{ ((?:[a-zA-Z]|(?:_[a-zA-Z0-9]))[a-zA-Z0-9_]*) }}'` (note the literal
single spaces): returns the captured variable name and the remainder. -/
def tryVarAtFull (cs : List Char) : Option (String × List Char) := do
  let cs ← eatToken [lbr, lbr, ' '] cs
  let (ident, cs) ←
    match cs with
    | [] => none
    | c :: rest =>
      if isAsciiLetter c then
        some (c :: rest.takeWhile isPyWord, rest.dropWhile isPyWord)
      else if c = '_' then
        match rest with
        | [] => none
        | d :: rest2 =>
          if isAsciiLetter d || isAsciiDigit d then
            some (c :: d :: rest2.takeWhile isPyWord, rest2.dropWhile isPyWord)
          else none
      else none
  let cs ← eatToken [' ', rbr, rbr] cs
  pure (String.mk ident, cs)

/-- `JINJA2_VAR_RE.findall(s)`: all `{{ var }}` matches.  The pattern cannot
match overlapping occurrences (its identifier class excludes braces), so
collecting a match attempt at every position yields the same multiset as
Python's non-overlapping scan. -/
def findallAux : List Char → List String
  | [] => []
  | c :: rest =>
    (match tryVarAtFull (c :: rest) with
     | some (v, _) => [v]
     | none => []) ++ findallAux rest

def jinja2_var_findall (s : String) : List String :=
  findallAux s.toList

/-- Modelled from the spec: `_render_jinja2` delegates to the external
`jinja2` library with `StrictUndefined`.  Per the spec (§6) the template
syntax is "double-curly-brace expressions evaluated against a string-keyed
variable mapping; unknown-variable evaluation must fail loudly".  Each
`{{ var }}` occurrence is substituted from the context; a missing variable
yields `none` (jinja2's `UndefinedError`).  The fuel starts at
`length + 1` and every step consumes at least one character, so it never
runs out. -/
def renderAux (ctx : Jinja2Vars) : Nat → List Char → Option (List Char)
  | 0, cs => some cs
  | fuel + 1, cs =>
    match cs with
    | [] => some []
    | c :: rest =>
      match tryVarAtFull (c :: rest) with
      | some (v, after) =>
        match dictLookup ctx v with
        | some val => (renderAux ctx fuel after).map (fun r => val.toList ++ r)
        | none => none
      | none => (renderAux ctx fuel rest).map (fun r => c :: r)

def render_jinja2 (tmpl : String) (ctx : Jinja2Vars) : Option String :=
  (renderAux ctx (tmpl.toList.length + 1) tmpl.toList).map String.mk

/-- `CHECKSUM_NAMES` from `migrators/version.py`. -/
def CHECKSUM_NAMES : List String :=
  ["hash_value", "hash", "hash_val", "sha256sum", "checksum"]

/-- Modelled from the spec: `getattr(hashlib, hash_type, None)` consults the
Python standard library; these are the guaranteed `hashlib` constructors. -/
def hashlib_algorithms : List String :=
  ["md5", "sha1", "sha224", "sha256", "sha384", "sha512", "blake2b",
   "blake2s", "sha3_224", "sha3_256", "sha3_384", "sha3_512", "shake_128",
   "shake_256"]

/-- Does an `MVal` satisfy Python's `'{{' in v and '}}' in v`?  For a string
this is substring containment; for a list it is element membership. -/
def mvalContainsBraces : MVal → Bool
  | .s v =>
    strContains (String.mk [lbr, lbr]) v && strContains (String.mk [rbr, rbr]) v
  | .ls vs =>
    vs.contains (String.mk [lbr, lbr]) && vs.contains (String.mk [rbr, rbr])

/-- The `for cname in cnames` loop of `_try_replace_hash`: first name that
exists in `jinja2_vars` (preferring the selector-qualified key) wins. -/
def replaceHashLoop (vars : Jinja2Vars) (selector : Option String)
    (new_hash : String) : List String → Bool × Jinja2Vars
  | [] => (false, vars)
  | cname :: rest =>
    match selector with
    | some s =>
      let key := cname ++ CONDA_SELECTOR ++ s
      if dictHas vars key then (true, dictSet vars key new_hash)
      else if dictHas vars cname then (true, dictSet vars cname new_hash)
      else replaceHashLoop vars selector new_hash rest
    | none =>
      if dictHas vars cname then (true, dictSet vars cname new_hash)
      else replaceHashLoop vars selector new_hash rest

/-- `_try_replace_hash(hash_key, cmeta, src, selector, hash_type, new_hash)`:
route the new hash into the shared variable table when the hash field is a
template, else into the source mapping itself. -/
def try_replace_hash (hash_key : String) (vars : Jinja2Vars) (src : Src)
    (selector : Option String) (hash_type new_hash : String) :
    Except String (Bool × Jinja2Vars × Src) :=
  match dictLookup src hash_key with
  | none => .error "KeyError"
  | some hv =>
    if mvalContainsBraces hv then
      let (replaced, vars') :=
        replaceHashLoop vars selector new_hash (CHECKSUM_NAMES ++ [hash_type])
      .ok (replaced, vars', src)
    else
      .ok (true, vars, dictSet src hash_key (.s new_hash))

/-- `_try_url_and_hash_it(url, hash_type)` with `hash_url` — the network
boundary — supplied as the oracle `hashUrl` ("fetch bytes at URL, compute
content hash of algorithm X, honoring a timeout — returning the hash or a
not-found indication", spec §6); every retrieval error or timeout is already
`none`. -/
def try_url_and_hash_it (hashUrl : String → String → Option String)
    (url : String) (hash_type : String) : Option String :=
  hashUrl url hash_type

/-- The `for new_url_tmpl in gen_transformed_urls(url_tmpl)` loop of
`_get_new_url_tmpl_and_hash`: stop at the first candidate that renders and
hashes; after a full loop the loop variables keep their last values. -/
def transformLoop (hashUrl : String → String → Option String)
    (context : Jinja2Vars) (hash_type : String) :
    List String → Option String × Option String
  | [] => (none, none)
  | t :: rest =>
    let h :=
      match render_jinja2 t context with
      | some u => try_url_and_hash_it hashUrl u hash_type
      | none => none
    match h with
    | some hh => (some t, some hh)
    | none =>
      match rest with
      | [] => (some t, none)
      | _ :: _ => transformLoop hashUrl context hash_type rest

/-- `_get_new_url_tmpl_and_hash(url_tmpl, context, hash_type)`, with
`gen_transformed_urls` — a fixed, deterministic candidate enumeration that is
not among the given sources — supplied as the parameter `gen` (spec §4.4:
"enumerate a fixed, deterministic sequence of syntactic URL rewrites"). -/
def get_new_url_tmpl_and_hash (hashUrl : String → String → Option String)
    (gen : String → List String) (url_tmpl : String) (context : Jinja2Vars)
    (hash_type : String) : Option String × Option String :=
  let direct :=
    match render_jinja2 url_tmpl context with
    | some url => try_url_and_hash_it hashUrl url hash_type
    | none => none
  match direct with
  | some h => (some url_tmpl, some h)
  | none => transformLoop hashUrl context hash_type (gen url_tmpl)

/-- The `for var in jinja2_var_set` loop of `_try_to_update_version`:
a variable with no declaration under any selector forces
`updated_version = False` and breaks; a variable missing from the active
context only marks the selector as skipped. -/
def varCheckLoop (vars context : Jinja2Vars) (updated skip : Bool) :
    List String → Bool × Bool
  | [] => (updated, skip)
  | v :: rest =>
    if (gen_key_selector vars v).isEmpty then (false, skip)
    else varCheckLoop vars context updated (skip || ¬ dictHas context v) rest

/-- The `for url_ind, url_tmpl in enumerate(src[url_key])` probing loop:
break at the first hash; the loop variables keep their last values. -/
def probeList (hashUrl : String → String → Option String)
    (gen : String → List String) (context : Jinja2Vars) (hash_type : String) :
    Nat → List String → Nat × Option String × Option String
  | i, [] => (i, none, none)
  | i, t :: rest =>
    let (nt, nh) := get_new_url_tmpl_and_hash hashUrl gen t context hash_type
    match nh with
    | some h => (i, nt, some h)
    | none =>
      match rest with
      | [] => (i, nt, none)
      | _ :: _ => probeList hashUrl gen context hash_type (i + 1) rest

/-- The tail of one selector iteration after probing: replace the hash and
the url template on success, update the `updated_version` accumulator. -/
def afterProbe (updated : Bool) (vars : Jinja2Vars) (src : Src)
    (url_key hash_key : String) (selector : Option String) (hash_type : String)
    (url_ind : Nat) (new_url_tmpl : Option String) (new_hash : Option String) :
    Except String (Bool × Jinja2Vars × Src) :=
  match new_hash with
  | none => .ok (updated && false, vars, src)
  | some nh => do
    let (replaced, vars', src') ←
      try_replace_hash hash_key vars src selector hash_type nh
    if replaced then
      match new_url_tmpl with
      | none => .error "unreachable: a hash is only found for a rendered template"
      | some nt =>
        match dictLookup src' url_key with
        | some (.ls urls) =>
          .ok (updated && true, vars', dictSet src' url_key (.ls (urls.set url_ind nt)))
        | some (.s _) =>
          .ok (updated && true, vars', dictSet src' url_key (.s nt))
        | none => .error "KeyError"
    else
      .ok (updated && false, vars', src')

/-- The `url_key` chosen for a selector: the last selector-qualified `url`
key containing the selector text, falling back to `'url'`. -/
def urlKeyFor (src : Src) (selector : Option String) : String :=
  match selector with
  | none => "url"
  | some s =>
    (gen_key_selector src "url").foldl
      (fun uk key => if strContains s key then key else uk) "url"

/-- The `hash_key` chosen for a selector, analogous to `urlKeyFor`. -/
def hashKeyFor (src : Src) (selector : Option String) (hash_type : String) :
    String :=
  match selector with
  | none => hash_type
  | some s =>
    (gen_key_selector src hash_type).foldl
      (fun hk key => if strContains s key then key else hk) hash_type

/-- The jinja2 context built for one selector: selector-qualified variables
are demoted to their base name when the active selector matches; under the
`None` selector only unqualified variables are visible. -/
def contextFor (vars : Jinja2Vars) (selector : Option String) : Jinja2Vars :=
  vars.foldl
    (fun ctx kv =>
      if strContains CONDA_SELECTOR kv.1 then
        match selector with
        | some s =>
          if strContains s kv.1 then
            dictSet ctx (splitHead CONDA_SELECTOR kv.1) kv.2
          else ctx
        | none => ctx
      else dictSet ctx kv.1 kv.2) []

/-- The `jinja2_var_set` of one selector iteration: every template variable
referenced by the url field (all templates when it is a list) and by the
hash field. -/
def varSetFor (urlVal : MVal) (hashStr : String) : List String :=
  let varsFromUrl :=
    match urlVal with
    | .ls ts => ts.foldl (fun a t => a ++ jinja2_var_findall t) []
    | .s t => jinja2_var_findall t
  dedup ((varsFromUrl ++ jinja2_var_findall hashStr).map some) |>.filterMap id

/-- One iteration of the `for selector in possible_selectors` loop of
`_try_to_update_version`, threading `(updated_version, jinja2_vars, src)`. -/
def selStep (hashUrl : String → String → Option String)
    (gen : String → List String) (hash_type : String)
    (acc : Bool × Jinja2Vars × Src) (selector : Option String) :
    Except String (Bool × Jinja2Vars × Src) :=
  let (updated, vars, src) := acc
  let url_key := urlKeyFor src selector
  if ¬ dictHas src url_key then .ok (updated, vars, src)
  else
    let hash_key := hashKeyFor src selector hash_type
    if ¬ dictHas src hash_key then .ok (updated, vars, src)
    else do
      let context := contextFor vars selector
      let urlVal ←
        match dictLookup src url_key with
        | some v => .ok v
        | none => .error "KeyError"
      let hashVal ←
        match dictLookup src hash_key with
        | some v => .ok v
        | none => .error "KeyError"
      let hashStr ←
        match hashVal with
        | .s t => .ok t
        | .ls _ => .error "TypeError: expected string or bytes-like object"
      let var_set := varSetFor urlVal hashStr
      let (updated1, skip) := varCheckLoop vars context updated false var_set
      if skip then .ok (updated1, vars, src)
      else
        match urlVal with
        | .ls [] => .error "NameError: name url_ind is not defined"
        | .ls urls =>
          let (url_ind, nt, nh) := probeList hashUrl gen context hash_type 0 urls
          afterProbe updated1 vars src url_key hash_key selector hash_type
            url_ind nt nh
        | .s t =>
          let (nt, nh) := get_new_url_tmpl_and_hash hashUrl gen t context hash_type
          afterProbe updated1 vars src url_key hash_key selector hash_type 0 nt nh

/-- `_try_to_update_version(cmeta, src, hash_type)`, threading the shared
variable table and the source mapping explicitly (in Python both are mutated
in place). -/
def try_to_update_version (hashUrl : String → String → Option String)
    (gen : String → List String) (vars : Jinja2Vars) (src : Src)
    (hash_type : String) : Except String (Bool × Jinja2Vars × Src) :=
  if ¬ src.any (fun kv => strContains "url" kv.1) then .ok (false, vars, src)
  else if ¬ hashlib_algorithms.contains hash_type then .ok (false, vars, src)
  else
    (compile_all_selectors vars src).foldlM
      (selStep hashUrl gen hash_type) (true, vars, src)

/-- The value under a `source` key of the parsed document: either one source
mapping or an ordered list of them. -/
inductive SrcsVal where
  | single (s : Src)
  | many (l : List Src)
  deriving Repr, DecidableEq

/-- The `CondaMetaYAML` view used by `Version.migrate`: the parsed `meta`
mapping (only the `source` keys are touched by the migration) and the shared
`jinja2_vars` table. -/
structure CondaMetaYAML where
  meta : PyDict SrcsVal
  jinja2_vars : Jinja2Vars
  deriving Repr, DecidableEq

/-- `_recipe_has_git_url(cmeta)`. -/
def recipe_has_git_url (cmeta : CondaMetaYAML) : Bool :=
  (gen_key_selector cmeta.meta "source").any (fun k =>
    match dictLookup cmeta.meta k with
    | some (.many srcs) =>
      srcs.any (fun src => ¬ (gen_key_selector src "git_url").isEmpty)
    | some (.single src) => ¬ (gen_key_selector src "git_url").isEmpty
    | none => false)

/-- `_is_r_url(url)`. -/
def is_r_url (url : String) : Bool :=
  strContains "cran.r-project.org/src/contrib" url || strContains "cran_mirror" url

/-- `_has_r_url` on a field value.  The Python function `return`s inside its
first loop iteration, so only the first element of a list is inspected. -/
def has_r_url_mval : MVal → Bool
  | .s v => is_r_url v
  | .ls [] => false
  | .ls (v :: _) => is_r_url v

/-- `_has_r_url` on a source mapping: only the first `url`-selector key is
inspected (the Python loop `return`s on its first iteration). -/
def has_r_url_src (src : Src) : Bool :=
  match gen_key_selector src "url" with
  | [] => false
  | k :: _ =>
    match dictLookup src k with
    | some v => has_r_url_mval v
    | none => false

/-- `_has_r_url` on a `source` value. -/
def has_r_url : SrcsVal → Bool
  | .many [] => false
  | .many (s :: _) => has_r_url_src s
  | .single s => has_r_url_src s

/-- `version.replace("_", "-")`. -/
def replaceUnderscores (s : String) : String :=
  String.mk (s.toList.map (fun c => if c = '_' then '-' else c))

/-- The outcome of `Version.migrate` on one recipe: the document written to
`meta.yaml` (`none` when the code returns `{}` without writing), whether a
non-empty migration uid was returned, and the `logger.critical` messages in
emission order. -/
structure MigrateResult where
  written : Option CondaMetaYAML
  uid : Bool
  logs : List String
  deriving Repr, DecidableEq

/-- The `for src in cmeta.meta[src_key]` inner loop of `Version.migrate`,
threading `did_update`, the shared variable table, and the rewritten list of
source mappings. -/
def migrateSrcList (hashUrl : String → String → Option String)
    (gen : String → List String) (hash_type : String) :
    List Src → Bool → Jinja2Vars → Except String (Bool × Jinja2Vars × List Src)
  | [], did, vars => .ok (did, vars, [])
  | s :: rest, did, vars => do
    let (u, vars', s') ← try_to_update_version hashUrl gen vars s hash_type
    let (did'', vars'', rest') ←
      migrateSrcList hashUrl gen hash_type rest (did && u) vars'
    .ok (did'', vars'', s' :: rest')

/-- The `for src_key in _gen_key_selector(cmeta.meta, 'source')` loop of
`Version.migrate`. -/
def migrateSources (hashUrl : String → String → Option String)
    (gen : String → List String) (hash_type : String) :
    List String → Bool → CondaMetaYAML → Except String (Bool × CondaMetaYAML)
  | [], did, cm => .ok (did, cm)
  | k :: rest, did, cm =>
    match dictLookup cm.meta k with
    | some (.many srcs) => do
      let (did', vars', srcs') ←
        migrateSrcList hashUrl gen hash_type srcs did cm.jinja2_vars
      migrateSources hashUrl gen hash_type rest did'
        { meta := dictSet cm.meta k (.many srcs'), jinja2_vars := vars' }
    | some (.single s) => do
      let (u, vars', s') ←
        try_to_update_version hashUrl gen cm.jinja2_vars s hash_type
      migrateSources hashUrl gen hash_type rest (did && u)
        { meta := dictSet cm.meta k (.single s'), jinja2_vars := vars' }
    | none => .error "KeyError"

/-- The R-mirror mangling of `Version.migrate`: when any source url or
jinja2 value is recognized as a CRAN url, underscores in the new version are
replaced by dashes. -/
def mangled_version (cmeta : CondaMetaYAML) (new_version : String) : String :=
  let r_url :=
    (gen_key_selector cmeta.meta "source").any (fun k =>
      match dictLookup cmeta.meta k with
      | some v => has_r_url v
      | none => false) ||
    cmeta.jinja2_vars.any (fun kv => is_r_url kv.2)
  if r_url then replaceUnderscores new_version else new_version

/-- `Version.migrate(recipe_dir, attrs, hash_type)` from
`migrators/version.py`.  `dump` is the round-tripping serializer
`CondaMetaYAML.dump` (from `conda_forge_tick/recipe_parser`, not among the
given sources), passed as a parameter.  The result records the written
document (`none` means the function returned `{}` without writing
`meta.yaml`) and the `logger.critical` messages. -/
def version_migrate (hashUrl : String → String → Option String)
    (gen : String → List String) (dump : CondaMetaYAML → String)
    (cmeta : CondaMetaYAML) (new_version : String) (hash_type : String) :
    Except String MigrateResult := do
  let old_meta_yaml := dump cmeta
  if recipe_has_git_url cmeta then
    return ⟨none, false, ["Migrations do not work on git_urls!"]⟩
  else
    let version := mangled_version cmeta new_version
    match dictLookup cmeta.jinja2_vars "version" with
    | none =>
      return ⟨none, false,
        ["Migrations do not work on versions not specified with jinja2!"]⟩
    | some old_version =>
      let cmeta1 : CondaMetaYAML :=
        { cmeta with jinja2_vars := dictSet cmeta.jinja2_vars "version" version }
      let srcKeys := gen_key_selector cmeta1.meta "source"
      if srcKeys.isEmpty then
        return ⟨none, false, ["Recipe did not change in version migration!"]⟩
      else do
        let (did, cmeta2) ← migrateSources hashUrl gen hash_type srcKeys true cmeta1
        if did then
          let restored : CondaMetaYAML :=
            { cmeta2 with
              jinja2_vars := dictSet cmeta2.jinja2_vars "version" old_version }
          if dump restored = old_meta_yaml then
            return ⟨none, false,
              ["Recipe did not change in version migration but the code indicates an update was done!",
               "Recipe did not change in version migration!"]⟩
          else
            return ⟨some cmeta2, true, []⟩
        else
          return ⟨none, false, ["Recipe did not change in version migration!"]⟩

/-! ## §4 `update_recipe/v2/version.py`: the v2 version updater -/

/-- The `Hash` argument of `update_version` (`hash_type`, `hash_value`). -/
structure VHash where
  hash_type : String
  hash_value : String
  deriving Repr, DecidableEq

/-- `update_hash(source, url, hash_)` from `v2/version.py`: delete the hash
keys of the algorithms not being updated, then either store the provided
hash or fetch-and-hash the url.  Returns the mutated source and `False`
exactly when `HashError` is raised (in which case the deletions have already
happened). -/
def update_hash (hashUrl : String → String → Option String) (source : Src)
    (url : String) (hash? : Option VHash) : Src × Bool :=
  let hash_type := match hash? with | some h => h.hash_type | none => "sha256"
  let source1 :=
    (["md5", "sha256"].filter (fun k => k ≠ hash_type)).foldl
      (fun s k => if dictHas s k then dictDel s k else s) source
  match hash? with
  | some h => (dictSet source1 h.hash_type (.s h.hash_value), true)
  | none =>
    match try_url_and_hash_it hashUrl url "sha256" with
    | some nh => (dictSet source1 "sha256" (.s nh), true)
    | none => (source1, false)

/-- The body of the `for source in get_all_sources(data)` loop of
`update_version` for one source: returns the (possibly mutated) source and
the error message added to the error set when `update_hash` raised
`HashError`.  An unrenderable url propagates out as a jinja2 error, exactly
as the uncaught exception would in Python. -/
def v2_process_source (hashUrl : String → String → Option String)
    (oldVars newVars : Jinja2Vars) (hash? : Option VHash) (source : Src) :
    Except String (Src × Option String) := do
  match dictLookup source "url" with
  | none => .ok (source, none)
  | some uval =>
    let url ←
      match uval with
      | .s u => .ok u
      | .ls [] => .error "IndexError: list index out of range"
      | .ls (u :: _) => .ok u
    let old_rendered ←
      match render_jinja2 url oldVars with
      | some r => .ok r
      | none => .error "jinja2.UndefinedError"
    let rendered ←
      match render_jinja2 url newVars with
      | some r => .ok r
      | none => .error "jinja2.UndefinedError"
    if old_rendered = rendered then .ok (source, none)
    else
      let (source', ok) := update_hash hashUrl source rendered hash?
      if ok then .ok (source', none)
      else .ok (source', some ("Could not hash " ++ url))

/-- The indentation fields the scanner accumulates are pure whitespace. -/
def ScanState.indentsWS (st : ScanState) : Prop :=
  st.indentC.toList.all isPySpace = true ∧
  st.indentM2c.toList.all isPySpace = true ∧
  st.indentOther.toList.all isPySpace = true

/-! ## §5 Library lemmas about the Python-dictionary model -/

theorem dictLookup_dictSet_self {α : Type} (d : PyDict α) (k : String) (v : α) :
    dictLookup (dictSet d k v) k = some v := by
  induction d with
  | nil => simp [dictSet, dictLookup]
  | cons kv rest ih =>
    obtain ⟨a, b⟩ := kv
    by_cases h : a = k
    · simp [dictSet, dictLookup, h]
    · simp [dictSet, dictLookup, h, ih]

theorem dictLookup_dictSet_ne {α : Type} (d : PyDict α) (k k' : String) (v : α)
    (h : k' ≠ k) : dictLookup (dictSet d k v) k' = dictLookup d k' := by
  induction d with
  | nil => simp [dictSet, dictLookup, Ne.symm h]
  | cons kv rest ih =>
    obtain ⟨a, b⟩ := kv
    by_cases hk : a = k
    · subst hk
      have h2 : ¬ a = k' := fun hh => h hh.symm
      simp [dictSet, dictLookup, h2]
    · by_cases hk' : a = k'
      · subst hk'
        simp [dictSet, dictLookup, hk, Ne.symm h]
      · simp [dictSet, dictLookup, hk, hk', ih]

theorem dictLookup_dictDel_ne {α : Type} (d : PyDict α) (k k' : String)
    (h : k' ≠ k) : dictLookup (dictDel d k) k' = dictLookup d k' := by
  induction d with
  | nil => simp [dictDel, dictLookup]
  | cons kv rest ih =>
    obtain ⟨a, b⟩ := kv
    by_cases hk : a = k
    · subst hk
      have h2 : ¬ a = k' := fun hh => h hh.symm
      simp [dictDel, dictLookup, h2, ih]
    · by_cases hk' : a = k'
      · subst hk'
        simp [dictDel, dictLookup, hk]
      · simp [dictDel, dictLookup, hk, hk', ih]

theorem dictDel_dictSet_ne {α : Type} (d : PyDict α) (k k' : String) (v : α)
    (h : k ≠ k') : dictDel (dictSet d k v) k' = dictSet (dictDel d k') k v := by
  induction d with
  | nil => simp [dictSet, dictDel, h]
  | cons kv rest ih =>
    obtain ⟨a, b⟩ := kv
    by_cases hk : a = k
    · subst hk
      simp [dictSet, dictDel, h, ih]
    · by_cases hk' : a = k'
      · subst hk'
        simp [dictSet, dictDel, hk, Ne.symm h]
      · simp [dictSet, dictDel, hk, hk', ih]

/-- `dictSet` on two distinct keys commutes when the first key is already
present (when both are absent the two orders append differently). -/
theorem dictSet_dictSet_ne_of_has {α : Type} (d : PyDict α) (k k' : String)
    (v v' : α) (h : k ≠ k') (hmem : dictHas d k = true) :
    dictSet (dictSet d k v) k' v' = dictSet (dictSet d k' v') k v := by
  induction d with
  | nil => simp [dictHas, dictLookup] at hmem
  | cons kv rest ih =>
    obtain ⟨a, b⟩ := kv
    by_cases hk : a = k
    · subst hk
      simp [dictSet, h, Ne.symm h]
    · by_cases hk' : a = k'
      · subst hk'
        simp [dictSet, hk, Ne.symm h]
      · have hmem2 : dictHas rest k = true := by
          simpa [dictHas, dictLookup, hk] using hmem
        simp [dictSet, hk, hk', ih hmem2]

theorem dictHas_dictSet_ne {α : Type} (d : PyDict α) (k k' : String) (v : α)
    (h : k' ≠ k) : dictHas (dictSet d k v) k' = dictHas d k' := by
  simp [dictHas, dictLookup_dictSet_ne d k k' v h]

/-! ## §6 Claim C2: the reentrant lock -/

/-- C2: `DaskRLock.acquire` increments the recursion counter and takes the
underlying lock exactly on the 0→1 transition; `release` decrements and
releases the underlying lock exactly when the counter returns to 0; the
sequence acquire, acquire, release, release keeps the underlying lock held
until the second release; releasing a fresh lock or one whose counter is 0
raises `RuntimeError`. -/
theorem dask_rlock_reentrant :
    (∀ l : DaskRLock, (l.acquire).1.rcount = some (l.rcount.getD 0 + 1)) ∧
    (∀ l : DaskRLock, l.rcount.getD 0 = 0 → (l.acquire).1.baseHeld = true) ∧
    (∀ l : DaskRLock, l.rcount.getD 0 ≠ 0 → (l.acquire).1.baseHeld = l.baseHeld) ∧
    (∀ l : DaskRLock, ∀ n : Nat, l.rcount = some (n + 2) →
      l.release = .ok { l with rcount := some (n + 1) }) ∧
    (∀ l : DaskRLock, l.rcount = some 1 →
      l.release = .ok { l with rcount := some 0, rdata := none, baseHeld := false }) ∧
    (∀ l : DaskRLock, l.rcount = none ∨ l.rcount = some 0 →
      l.release = .error "Lock not acquired so cannot be released!") ∧
    ((DaskRLock.init.acquire).1.baseHeld = true ∧
      ((DaskRLock.init.acquire).1.acquire).1.baseHeld = true ∧
      ∃ s3, ((DaskRLock.init.acquire).1.acquire).1.release = .ok s3 ∧
        s3.baseHeld = true ∧
        ∃ s4, s3.release = .ok s4 ∧ s4.baseHeld = false ∧
          s4.release = .error "Lock not acquired so cannot be released!") := by
  refine ⟨?_, ?_, ?_, ?_, ?_, ?_, ?_⟩
  · intro l
    by_cases h : l.rcount.getD 0 = 0 <;> simp [DaskRLock.acquire, h]
  · intro l h
    simp [DaskRLock.acquire, h]
  · intro l h
    simp [DaskRLock.acquire, h]
  · intro l n h
    simp [DaskRLock.release, h]
  · intro l h
    simp [DaskRLock.release, h]
  · intro l h
    rcases h with h | h <;> simp [DaskRLock.release, h]
  · refine ⟨by decide, by decide, ?_⟩
    refine ⟨⟨some 1, some true, true⟩, rfl, by decide, ?_⟩
    exact ⟨⟨some 0, none, false⟩, rfl, by decide, rfl⟩

/-- Witness for C2: the hypothesis-bearing conjuncts applied at concrete
lock states. -/
theorem dask_rlock_reentrant_witness :
    ((⟨none, none, false⟩ : DaskRLock).acquire).1.baseHeld = true ∧
    ((⟨some 2, some true, true⟩ : DaskRLock).acquire).1.baseHeld = true ∧
    (⟨some 3, some true, true⟩ : DaskRLock).release =
      .ok { rcount := some 2, rdata := some true, baseHeld := true } ∧
    (⟨some 1, some true, true⟩ : DaskRLock).release =
      .ok { rcount := some 0, rdata := none, baseHeld := false } ∧
    (⟨some 0, none, false⟩ : DaskRLock).release =
      .error "Lock not acquired so cannot be released!" :=
  ⟨dask_rlock_reentrant.2.1 ⟨none, none, false⟩ (by decide),
   (dask_rlock_reentrant.2.2.1 ⟨some 2, some true, true⟩ (by decide)).trans rfl,
   dask_rlock_reentrant.2.2.2.1 ⟨some 3, some true, true⟩ 1 rfl,
   dask_rlock_reentrant.2.2.2.2.1 ⟨some 1, some true, true⟩ rfl,
   dask_rlock_reentrant.2.2.2.2.2.1 ⟨some 0, none, false⟩ (Or.inr rfl)⟩
/-! ## §7 Claim C4: rejection on missing version variable or git url -/

/-- C4: `Version.migrate` rejects — writing nothing, returning an empty uid,
and logging the specific failure — whenever the parsed document has a
`git_url` source (in particular whenever a source is reachable only through
one) or the `version` template variable is not declared. -/
theorem version_migrate_rejects (hashUrl : String → String → Option String)
    (gen : String → List String) (dump : CondaMetaYAML → String)
    (cmeta : CondaMetaYAML) (nv ht : String)
    (h : recipe_has_git_url cmeta = true ∨
         dictLookup cmeta.jinja2_vars "version" = none) :
    ∃ r, version_migrate hashUrl gen dump cmeta nv ht = Except.ok r ∧
      r.written = none ∧ r.uid = false ∧
      (r.logs = ["Migrations do not work on git_urls!"] ∨
       r.logs = ["Migrations do not work on versions not specified with jinja2!"]) := by
  by_cases hg : recipe_has_git_url cmeta = true
  · refine ⟨⟨none, false, ["Migrations do not work on git_urls!"]⟩, ?_, rfl, rfl,
      Or.inl rfl⟩
    simp [version_migrate, hg]
    rfl
  · have hv : dictLookup cmeta.jinja2_vars "version" = none := by
      rcases h with h | h
      · exact absurd h hg
      · exact h
    refine ⟨⟨none, false,
      ["Migrations do not work on versions not specified with jinja2!"]⟩, ?_, rfl,
      rfl, Or.inr rfl⟩
    simp [version_migrate, hg, hv]
    rfl

/-- Witness for C4 at a concrete recipe whose single source carries only a
`git_url`. -/
theorem version_migrate_rejects_witness :
    (recipe_has_git_url
        ⟨[("source", SrcsVal.single [("git_url", MVal.s "https://github.com/x.git")])],
         [("version", "1.0")]⟩ = true ∨
      dictLookup ([("version", "1.0")] : Jinja2Vars) "version" = none) ∧
    ∃ r, version_migrate (fun _ _ => none) (fun _ => []) (fun _ => "d")
        ⟨[("source", SrcsVal.single [("git_url", MVal.s "https://github.com/x.git")])],
         [("version", "1.0")]⟩ "1.2" "sha256" = Except.ok r ∧
      r.written = none ∧ r.uid = false ∧
      (r.logs = ["Migrations do not work on git_urls!"] ∨
       r.logs = ["Migrations do not work on versions not specified with jinja2!"]) :=
  ⟨Or.inl (by decide),
   version_migrate_rejects (fun _ _ => none) (fun _ => []) (fun _ => "d")
     ⟨[("source", SrcsVal.single [("git_url", MVal.s "https://github.com/x.git")])],
      [("version", "1.0")]⟩ "1.2" "sha256" (Or.inl (by decide))⟩

/-! ## §8 Claim C1: no partially updated document in the v2 updater -/

/-- C9 counterexample: in the v2 updater, a source that cannot be re-hashed
does **not** retain exactly its original fields — `update_hash` deletes the
stale `md5` key before the fetch, and the deletion persists when the fetch
fails. -/
theorem update_hash_mutates_on_failure :
    update_hash (fun _ _ => none)
        [("url", MVal.s "u"), ("md5", MVal.s "bb")] "https://bad/x" none =
      ([("url", MVal.s "u")], false) ∧
    ([("url", MVal.s "u")] : Src) ≠ [("url", MVal.s "u"), ("md5", MVal.s "bb")] :=
  ⟨rfl, by decide⟩

/-- C9 (amended): in the v1 resolution engine, every way of abandoning a
selector's migration attempt — a missing url field, a missing hash field,
a selector skip, a source without any url key, or probing that finds no
hash — leaves the shared variable table and the source mapping unmodified. -/
theorem resolution_abandon_frame :
    (∀ (hashUrl : String → String → Option String) (gen : String → List String)
        (ht : String) (sel : Option String) (updated : Bool) (vars : Jinja2Vars)
        (src : Src),
      dictHas src (urlKeyFor src sel) = false →
      selStep hashUrl gen ht (updated, vars, src) sel = .ok (updated, vars, src)) ∧
    (∀ (hashUrl : String → String → Option String) (gen : String → List String)
        (ht : String) (sel : Option String) (updated : Bool) (vars : Jinja2Vars)
        (src : Src),
      dictHas src (hashKeyFor src sel ht) = false →
      selStep hashUrl gen ht (updated, vars, src) sel = .ok (updated, vars, src)) ∧
    (∀ (hashUrl : String → String → Option String) (gen : String → List String)
        (ht : String) (sel : Option String) (updated : Bool) (vars : Jinja2Vars)
        (src : Src) (uval : MVal) (hstr : String) (u1 : Bool),
      dictLookup src (urlKeyFor src sel) = some uval →
      dictLookup src (hashKeyFor src sel ht) = some (.s hstr) →
      varCheckLoop vars (contextFor vars sel) updated false
        (varSetFor uval hstr) = (u1, true) →
      selStep hashUrl gen ht (updated, vars, src) sel = .ok (u1, vars, src)) ∧
    (∀ (hashUrl : String → String → Option String) (gen : String → List String)
        (ht : String) (sel : Option String) (updated : Bool) (vars : Jinja2Vars)
        (src : Src) (t hstr : String) (u1 : Bool),
      dictLookup src (urlKeyFor src sel) = some (.s t) →
      dictLookup src (hashKeyFor src sel ht) = some (.s hstr) →
      varCheckLoop vars (contextFor vars sel) updated false
        (varSetFor (.s t) hstr) = (u1, false) →
      (get_new_url_tmpl_and_hash hashUrl gen t (contextFor vars sel) ht).2 = none →
      selStep hashUrl gen ht (updated, vars, src) sel = .ok (false, vars, src)) ∧
    (∀ (hashUrl : String → String → Option String) (gen : String → List String)
        (ht : String) (vars : Jinja2Vars) (src : Src),
      src.any (fun kv => strContains "url" kv.1) = false →
      try_to_update_version hashUrl gen vars src ht = .ok (false, vars, src)) := by
  refine ⟨?_, ?_, ?_, ?_, ?_⟩
  · intro hashUrl gen ht sel updated vars src h
    simp [selStep, h]
  · intro hashUrl gen ht sel updated vars src h
    by_cases hu : dictHas src (urlKeyFor src sel) = true
    · simp [selStep, hu, h]
    · simp [selStep, hu]
  · intro hashUrl gen ht sel updated vars src uval hstr u1 hu hh hskip
    simp [selStep, dictHas, hu, hh, Bind.bind, Except.bind, hskip]
  · intro hashUrl gen ht sel updated vars src t hstr u1 hu hh hnoskip hfail
    simp [selStep, dictHas, hu, hh, Bind.bind, Except.bind, hnoskip, afterProbe,
      hfail]
  · intro hashUrl gen ht vars src h
    simp [try_to_update_version, h]

/-- Witness for C9 (amended): the hash-not-found conjunct at a concrete
source whose fetch oracle fails, and the missing-hash-field conjunct. -/
theorem resolution_abandon_frame_witness :
    dictLookup ([("url", MVal.s "\x7b\x7b version \x7d\x7d.tar.gz"),
        ("sha256", MVal.s "abc")] : Src)
      (urlKeyFor [("url", MVal.s "\x7b\x7b version \x7d\x7d.tar.gz"),
        ("sha256", MVal.s "abc")] none) =
        some (MVal.s "\x7b\x7b version \x7d\x7d.tar.gz") ∧
    selStep (fun _ _ => none) (fun _ => []) "sha256"
      (true, [("version", "1.2")],
        [("url", MVal.s "\x7b\x7b version \x7d\x7d.tar.gz"),
         ("sha256", MVal.s "abc")]) none =
      .ok (false, [("version", "1.2")],
        [("url", MVal.s "\x7b\x7b version \x7d\x7d.tar.gz"),
         ("sha256", MVal.s "abc")]) ∧
    selStep (fun _ _ => none) (fun _ => []) "sha256"
      (true, [("version", "1.2")], [("url", MVal.s "x.tar.gz")]) none =
      .ok (true, [("version", "1.2")], [("url", MVal.s "x.tar.gz")]) :=
  ⟨rfl,
   resolution_abandon_frame.2.2.2.1 (fun _ _ => none) (fun _ => []) "sha256" none
     true [("version", "1.2")]
     [("url", MVal.s "\x7b\x7b version \x7d\x7d.tar.gz"), ("sha256", MVal.s "abc")]
     "\x7b\x7b version \x7d\x7d.tar.gz" "abc" true rfl rfl rfl rfl,
   resolution_abandon_frame.2.1 (fun _ _ => none) (fun _ => []) "sha256" none
     true [("version", "1.2")] [("url", MVal.s "x.tar.gz")] rfl⟩
/-! ## §10 Claim C10: only the first of alternate urls is used in v2 -/

theorem foldlDel_lookup {α : Type} : ∀ (l : List String) (d : PyDict α) (k : String),
    (∀ kk ∈ l, k ≠ kk) →
    dictLookup (l.foldl (fun s kk => if dictHas s kk then dictDel s kk else s) d) k
      = dictLookup d k := by
  intro l
  induction l with
  | nil => intro d k _; rfl
  | cons kk l' ih =>
    intro d k hk
    have h1 : k ≠ kk := hk kk (by simp)
    have h2 : ∀ x ∈ l', k ≠ x := fun x hx => hk x (by simp [hx])
    simp only [List.foldl_cons]
    rw [ih _ k h2]
    by_cases hd : dictHas d kk = true
    · simp [hd, dictLookup_dictDel_ne d kk k h1]
    · simp [hd]

theorem foldlDel_dictSet {α : Type} : ∀ (l : List String) (d : PyDict α) (k : String) (v : α),
    (∀ kk ∈ l, k ≠ kk) →
    l.foldl (fun s kk => if dictHas s kk then dictDel s kk else s) (dictSet d k v)
      = dictSet (l.foldl (fun s kk => if dictHas s kk then dictDel s kk else s) d) k v := by
  intro l
  induction l with
  | nil => intro d k v _; rfl
  | cons kk l' ih =>
    intro d k v hk
    have h1 : k ≠ kk := hk kk (by simp)
    have h2 : ∀ x ∈ l', k ≠ x := fun x hx => hk x (by simp [hx])
    simp only [List.foldl_cons]
    have hstep : (if dictHas (dictSet d k v) kk then dictDel (dictSet d k v) kk
        else dictSet d k v) =
        dictSet (if dictHas d kk then dictDel d kk else d) k v := by
      rw [dictHas_dictSet_ne d k kk v (fun hh => h1 hh.symm)]
      by_cases hd : dictHas d kk = true
      · simp [hd, dictDel_dictSet_ne d k kk v h1]
      · simp [hd]
    rw [hstep, ih _ k v h2]

theorem foldlDel_has {α : Type} (l : List String) (d : PyDict α) (k : String)
    (hk : ∀ kk ∈ l, k ≠ kk) :
    dictHas (l.foldl (fun s kk => if dictHas s kk then dictDel s kk else s) d) k
      = dictHas d k :=
  congrArg Option.isSome (foldlDel_lookup l d k hk)

/-- `update_hash` never touches a key other than `md5`, `sha256` and the
provided hash's own algorithm name. -/
theorem update_hash_preserves_key (f : String → String → Option String)
    (src : Src) (url : String) (hash? : Option VHash) (k : String)
    (h1 : k ≠ "md5") (h2 : k ≠ "sha256")
    (h3 : ∀ hh, hash? = some hh → k ≠ hh.hash_type) :
    dictLookup (update_hash f src url hash?).1 k = dictLookup src k := by
  cases hash? with
  | none =>
    have hmem : ∀ kk ∈ (["md5", "sha256"].filter (fun x => x ≠ "sha256")), k ≠ kk := by
      intro kk hkk
      have hmm := List.mem_of_mem_filter hkk
      simp at hmm
      rcases hmm with rfl | rfl
      · exact h1
      · exact h2
    cases hfu : f url "sha256" with
    | some nh =>
      simp only [update_hash, try_url_and_hash_it, hfu]
      rw [dictLookup_dictSet_ne _ _ _ _ h2]
      exact foldlDel_lookup _ src k hmem
    | none =>
      simp only [update_hash, try_url_and_hash_it, hfu]
      exact foldlDel_lookup _ src k hmem
  | some hh =>
    have hmem : ∀ kk ∈ (["md5", "sha256"].filter (fun x => x ≠ hh.hash_type)), k ≠ kk := by
      intro kk hkk
      have hmm := List.mem_of_mem_filter hkk
      simp at hmm
      rcases hmm with rfl | rfl
      · exact h1
      · exact h2
    simp only [update_hash]
    rw [dictLookup_dictSet_ne _ _ _ _ (h3 hh rfl)]
    exact foldlDel_lookup _ src k hmem

/-- `update_hash` commutes with overwriting the `url` field (which it never
reads or writes). -/
theorem update_hash_dictSet_url (f : String → String → Option String)
    (src : Src) (url : String) (hash? : Option VHash) (v : MVal)
    (hhas : dictHas src "url" = true)
    (h3 : ∀ hh, hash? = some hh → hh.hash_type = "md5" ∨ hh.hash_type = "sha256") :
    update_hash f (dictSet src "url" v) url hash? =
      (dictSet (update_hash f src url hash?).1 "url" v,
       (update_hash f src url hash?).2) := by
  cases hash? with
  | none =>
    have hmem : ∀ kk ∈ (["md5", "sha256"].filter (fun x => x ≠ "sha256")),
        ("url" : String) ≠ kk := by
      intro kk hkk
      have hmm := List.mem_of_mem_filter hkk
      simp at hmm
      rcases hmm with rfl | rfl <;> decide
    have hfold := foldlDel_dictSet (["md5", "sha256"].filter (fun x => x ≠ "sha256"))
      src "url" v hmem
    have hhas2 : dictHas ((["md5", "sha256"].filter (fun x => x ≠ "sha256")).foldl
        (fun s kk => if dictHas s kk then dictDel s kk else s) src) "url" = true :=
      (foldlDel_has _ src "url" hmem).trans hhas
    cases hfu : f url "sha256" with
    | some nh =>
      simp only [update_hash, try_url_and_hash_it, hfu, hfold]
      rw [dictSet_dictSet_ne_of_has _ "url" "sha256" v (MVal.s nh) (by decide) hhas2]
    | none =>
      simp only [update_hash, try_url_and_hash_it, hfu, hfold]
  | some hh =>
    have hmem : ∀ kk ∈ (["md5", "sha256"].filter (fun x => x ≠ hh.hash_type)),
        ("url" : String) ≠ kk := by
      intro kk hkk
      have hmm := List.mem_of_mem_filter hkk
      simp at hmm
      rcases hmm with rfl | rfl <;> decide
    have hfold := foldlDel_dictSet (["md5", "sha256"].filter (fun x => x ≠ hh.hash_type))
      src "url" v hmem
    have hhas2 : dictHas ((["md5", "sha256"].filter (fun x => x ≠ hh.hash_type)).foldl
        (fun s kk => if dictHas s kk then dictDel s kk else s) src) "url" = true :=
      (foldlDel_has _ src "url" hmem).trans hhas
    have hne : ("url" : String) ≠ hh.hash_type := by
      rcases h3 hh rfl with h | h <;> rw [h] <;> decide
    simp only [update_hash, hfold]
    rw [dictSet_dictSet_ne_of_has _ "url" hh.hash_type v (MVal.s hh.hash_value) hne hhas2]

/-- C10: when a v2 source's `url` is a list of alternates, only the first
element matters — the url field of the processed source is unchanged, and
processing the source is exactly processing it with the url replaced by the
first alternate alone (so the remaining alternates are never rendered,
fetched, or modified, also when hashing the first url fails). -/
theorem v2_first_url_only (hashUrl : String → String → Option String)
    (oldV newV : Jinja2Vars) (hash? : Option VHash) (src : Src) (u : String)
    (rest : List String) (out : Src × Option String)
    (hhash : ∀ hh, hash? = some hh → hh.hash_type = "md5" ∨ hh.hash_type = "sha256")
    (hurl : dictLookup src "url" = some (MVal.ls (u :: rest)))
    (h : v2_process_source hashUrl oldV newV hash? src = .ok out) :
    dictLookup out.1 "url" = some (MVal.ls (u :: rest)) ∧
    v2_process_source hashUrl oldV newV hash? (dictSet src "url" (MVal.s u)) =
      .ok (dictSet out.1 "url" (MVal.s u), out.2) := by
  have hhas : dictHas src "url" = true := by simp [dictHas, hurl]
  unfold v2_process_source at h ⊢
  rw [hurl] at h
  rw [dictLookup_dictSet_self src "url" (MVal.s u)]
  simp only [Bind.bind, Except.bind] at h ⊢
  cases hro : render_jinja2 u oldV with
  | none => rw [hro] at h; simp at h
  | some ro =>
    rw [hro] at h
    cases hrn : render_jinja2 u newV with
    | none => rw [hrn] at h; simp at h
    | some rn =>
      rw [hrn] at h
      dsimp only at h ⊢
      by_cases heq : ro = rn
      · simp only [heq, if_pos rfl, if_true] at h ⊢
        simp at h
        subst h
        exact ⟨hurl, rfl⟩
      · simp only [if_neg heq] at h ⊢
        rw [update_hash_dictSet_url hashUrl src rn hash? (MVal.s u) hhas hhash]
        have hpres : dictLookup (update_hash hashUrl src rn hash?).1 "url"
            = some (MVal.ls (u :: rest)) := by
          rw [update_hash_preserves_key hashUrl src rn hash? "url" (by decide) (by decide)
            (fun hh hhe => by rcases hhash hh hhe with hx | hx <;> rw [hx] <;> decide)]
          exact hurl
        by_cases hok : (update_hash hashUrl src rn hash?).2 = true
        · simp only [hok, if_pos rfl, if_true] at h ⊢
          simp at h
          subst h
          exact ⟨hpres, rfl⟩
        · simp only [hok, if_neg hok, Bool.false_eq_true, if_false] at h ⊢
          simp at h
          subst h
          exact ⟨hpres, rfl⟩

/-- Witness for C10: a two-alternate url whose first fails to hash — the
stored url list is unchanged and processing coincides with processing the
first alternate alone. -/
theorem v2_first_url_only_witness :
    v2_process_source (fun _ _ => none) [("version", "1.0")] [("version", "2.0")]
        none
        [("url", MVal.ls ["https://a/\x7b\x7b version \x7d\x7d.tar.gz",
                          "https://b/z.tar.gz"]),
         ("md5", MVal.s "mm")] =
      .ok ([("url", MVal.ls ["https://a/\x7b\x7b version \x7d\x7d.tar.gz",
                             "https://b/z.tar.gz"])],
           some "Could not hash https://a/\x7b\x7b version \x7d\x7d.tar.gz") ∧
    dictLookup ([("url", MVal.ls ["https://a/\x7b\x7b version \x7d\x7d.tar.gz",
        "https://b/z.tar.gz"])] : Src) "url" =
      some (MVal.ls ["https://a/\x7b\x7b version \x7d\x7d.tar.gz",
                     "https://b/z.tar.gz"]) ∧
    v2_process_source (fun _ _ => none) [("version", "1.0")] [("version", "2.0")]
        none
        (dictSet [("url", MVal.ls ["https://a/\x7b\x7b version \x7d\x7d.tar.gz",
                                   "https://b/z.tar.gz"]),
                  ("md5", MVal.s "mm")] "url"
          (MVal.s "https://a/\x7b\x7b version \x7d\x7d.tar.gz")) =
      .ok (dictSet [("url", MVal.ls ["https://a/\x7b\x7b version \x7d\x7d.tar.gz",
                                     "https://b/z.tar.gz"])] "url"
             (MVal.s "https://a/\x7b\x7b version \x7d\x7d.tar.gz"),
           some "Could not hash https://a/\x7b\x7b version \x7d\x7d.tar.gz") :=
  ⟨rfl,
   (v2_first_url_only (fun _ _ => none) [("version", "1.0")] [("version", "2.0")]
     none
     [("url", MVal.ls ["https://a/\x7b\x7b version \x7d\x7d.tar.gz",
                       "https://b/z.tar.gz"]),
      ("md5", MVal.s "mm")]
     "https://a/\x7b\x7b version \x7d\x7d.tar.gz" ["https://b/z.tar.gz"]
     ([("url", MVal.ls ["https://a/\x7b\x7b version \x7d\x7d.tar.gz",
                        "https://b/z.tar.gz"])],
      some "Could not hash https://a/\x7b\x7b version \x7d\x7d.tar.gz")
     (fun hh hhe => by cases hhe) rfl rfl).1,
   (v2_first_url_only (fun _ _ => none) [("version", "1.0")] [("version", "2.0")]
     none
     [("url", MVal.ls ["https://a/\x7b\x7b version \x7d\x7d.tar.gz",
                       "https://b/z.tar.gz"]),
      ("md5", MVal.s "mm")]
     "https://a/\x7b\x7b version \x7d\x7d.tar.gz" ["https://b/z.tar.gz"]
     ([("url", MVal.ls ["https://a/\x7b\x7b version \x7d\x7d.tar.gz",
                        "https://b/z.tar.gz"])],
      some "Could not hash https://a/\x7b\x7b version \x7d\x7d.tar.gz")
     (fun hh hhe => by cases hhe) rfl rfl).2⟩
/-! ## §11 Claim C5: missing declarations vs selector skips -/

/-- C5 counterexample: a source whose url references a variable declared
nowhere (`foo`), but which has no hash field — every selector is skipped
before the variable check, and `_try_to_update_version` returns `True`
(vacuous success), not the failure the claim requires. -/
theorem missing_decl_not_always_failure :
    try_to_update_version (fun _ _ => none) (fun _ => []) [("version", "1.0")]
        [("url", MVal.s "https://x/\x7b\x7b foo \x7d\x7d.tar.gz")] "sha256" =
      .ok (true, [("version", "1.0")],
        [("url", MVal.s "https://x/\x7b\x7b foo \x7d\x7d.tar.gz")]) ∧
    jinja2_var_findall "https://x/\x7b\x7b foo \x7d\x7d.tar.gz" = ["foo"] ∧
    gen_key_selector ([("version", "1.0")] : Jinja2Vars) "foo" = [] :=
  ⟨rfl, rfl, rfl⟩

theorem afterProbe_false (vars : Jinja2Vars) (src : Src) (url_key hash_key : String)
    (sel : Option String) (ht : String) (url_ind : Nat) (nt : Option String)
    (nh : Option String) (out : Bool × Jinja2Vars × Src)
    (h : afterProbe false vars src url_key hash_key sel ht url_ind nt nh = .ok out) :
    out.1 = false := by
  unfold afterProbe at h
  cases nh with
  | none =>
    simp at h
    rw [← h]
  | some v =>
    simp only [Bind.bind, Except.bind] at h
    cases htr : try_replace_hash hash_key vars src sel ht v with
    | error e => rw [htr] at h; simp at h
    | ok r =>
      rw [htr] at h
      obtain ⟨replaced, vars', src'⟩ := r
      dsimp only at h
      by_cases hrep : replaced = true
      · subst hrep
        simp only [if_pos rfl, if_true] at h
        cases nt with
        | none => simp at h
        | some t =>
          dsimp only at h
          cases hlk : dictLookup src' url_key with
          | none => rw [hlk] at h; simp at h
          | some mv =>
            rw [hlk] at h
            cases mv with
            | ls urls => simp at h; rw [← h]
            | s t2 => simp at h; rw [← h]
      · simp only [hrep] at h
        simp at h
        rw [← h]

theorem varCheckLoop_fst_false (vars ctx : Jinja2Vars) (sk : Bool) :
    ∀ (l : List String), (varCheckLoop vars ctx false sk l).1 = false := by
  intro l
  induction l generalizing sk with
  | nil => rfl
  | cons v rest ih =>
    by_cases hv : (gen_key_selector vars v).isEmpty = true
    · simp [varCheckLoop, hv]
    · simp [varCheckLoop, hv, ih]

theorem varCheckLoop_missing (vars ctx : Jinja2Vars) (u sk : Bool) :
    ∀ (l : List String), (∃ var ∈ l, gen_key_selector vars var = []) →
      (varCheckLoop vars ctx u sk l).1 = false := by
  intro l
  induction l generalizing u sk with
  | nil => intro h; simp at h
  | cons v rest ih =>
    intro h
    by_cases hv : (gen_key_selector vars v).isEmpty = true
    · simp [varCheckLoop, hv]
    · obtain ⟨var, hmem, hvar⟩ := h
      simp at hmem
      rcases hmem with rfl | hmem
      · exact absurd (by simp [hvar]) hv
      · simp [varCheckLoop, hv]
        exact ih u _ ⟨var, hmem, hvar⟩

theorem selStep_preserves_false (hashUrl : String → String → Option String)
    (gen : String → List String) (ht : String) (sel : Option String)
    (vars : Jinja2Vars) (src : Src) (out : Bool × Jinja2Vars × Src)
    (h : selStep hashUrl gen ht (false, vars, src) sel = .ok out) :
    out.1 = false := by
  unfold selStep at h
  by_cases hu : dictHas src (urlKeyFor src sel) = true
  · simp only [hu] at h
    by_cases hh : dictHas src (hashKeyFor src sel ht) = true
    · simp only [hh] at h
      simp only [Bind.bind, Except.bind] at h
      cases hlu : dictLookup src (urlKeyFor src sel) with
      | none => rw [hlu] at h; simp at h
      | some uval =>
        rw [hlu] at h
        cases hlh : dictLookup src (hashKeyFor src sel ht) with
        | none => rw [hlh] at h; simp at h
        | some hval =>
          rw [hlh] at h
          dsimp only at h
          cases hval with
          | ls vs => simp at h
          | s hstr =>
            dsimp only at h
            by_cases hskip : (varCheckLoop vars (contextFor vars sel) false false
                (varSetFor uval hstr)).2 = true
            · simp only [hskip, if_pos rfl, if_true] at h
              simp at h
              rw [← h]
              exact varCheckLoop_fst_false vars (contextFor vars sel) false _
            · simp only [hskip, if_false] at h
              simp only [Bool.not_eq_true] at hskip
              rw [varCheckLoop_fst_false vars (contextFor vars sel) false
                (varSetFor uval hstr)] at h
              cases uval with
              | ls urls =>
                cases urls with
                | nil => simp at h
                | cons a as => exact afterProbe_false _ _ _ _ _ _ _ _ _ _ h
              | s t => exact afterProbe_false _ _ _ _ _ _ _ _ _ _ h
    · simp only [hh] at h
      simp at h
      rw [← h]
  · simp only [hu] at h
    simp at h
    rw [← h]

theorem foldlM_selStep_false (hashUrl : String → String → Option String)
    (gen : String → List String) (ht : String) :
    ∀ (sels : List (Option String)) (vars : Jinja2Vars) (src : Src)
      (out : Bool × Jinja2Vars × Src),
      sels.foldlM (selStep hashUrl gen ht) (false, vars, src) = .ok out →
      out.1 = false := by
  intro sels
  induction sels with
  | nil =>
    intro vars src out h
    simp [List.foldlM, pure, Except.pure] at h
    rw [← h]
  | cons sel rest ih =>
    intro vars src out h
    simp only [List.foldlM, Bind.bind, Except.bind] at h
    cases hstep : selStep hashUrl gen ht (false, vars, src) sel with
    | error e => rw [hstep] at h; simp at h
    | ok acc =>
      rw [hstep] at h
      obtain ⟨b1, vars1, src1⟩ := acc
      have hb1 : b1 = false := selStep_preserves_false hashUrl gen ht sel vars src _ hstep
      subst hb1
      exact ih vars1 src1 out h

theorem selStep_none_missing_var (hashUrl : String → String → Option String)
    (gen : String → List String) (ht : String) (u : Bool)
    (vars : Jinja2Vars) (src : Src) (uval : MVal) (hstr : String)
    (hlu : dictLookup src "url" = some uval)
    (hlh : dictLookup src ht = some (.s hstr))
    (hmiss : ∃ var ∈ varSetFor uval hstr, gen_key_selector vars var = [])
    (out : Bool × Jinja2Vars × Src)
    (h : selStep hashUrl gen ht (u, vars, src) none = .ok out) :
    out.1 = false := by
  unfold selStep at h
  have hukf : urlKeyFor src none = "url" := rfl
  have hhkf : hashKeyFor src none ht = ht := rfl
  have hu : dictHas src (urlKeyFor src none) = true := by
    simp [dictHas, hukf, hlu]
  have hh : dictHas src (hashKeyFor src none ht) = true := by
    simp [dictHas, hhkf, hlh]
  simp only [hu] at h
  simp only [hh] at h
  simp only [Bind.bind, Except.bind] at h
  rw [hukf, hhkf] at h
  rw [hlu, hlh] at h
  dsimp only at h
  have hfst : (varCheckLoop vars (contextFor vars none) u false
      (varSetFor uval hstr)).1 = false :=
    varCheckLoop_missing vars (contextFor vars none) u false _ hmiss
  by_cases hskip : (varCheckLoop vars (contextFor vars none) u false
      (varSetFor uval hstr)).2 = true
  · simp only [hskip, if_pos rfl, if_true] at h
    simp at h
    rw [← h, hfst]
  · simp only [hskip, if_false] at h
    rw [hfst] at h
    cases uval with
    | ls urls =>
      cases urls with
      | nil => simp at h
      | cons a as => exact afterProbe_false _ _ _ _ _ _ _ _ _ _ h
    | s t => exact afterProbe_false _ _ _ _ _ _ _ _ _ _ h

theorem dedup_cons_none (L : List (Option String)) :
    dedup (none :: L) = none :: dedupAux [none] L := rfl

theorem lookup_url_any (src : Src) (uval : MVal)
    (hlu : dictLookup src "url" = some uval) :
    src.any (fun kv => strContains "url" kv.1) = true := by
  induction src with
  | nil => simp [dictLookup] at hlu
  | cons kv rest ih =>
    obtain ⟨a, b⟩ := kv
    by_cases ha : a = "url"
    · subst ha
      simp [List.any_cons]
      left
      decide
    · simp [dictLookup, ha] at hlu
      rw [List.any_cons]
      rw [ih hlu]
      simp

/-- C5 (amended): (a) when a selector iteration actually reaches the
variable check — its url and hash fields are present, as for the default
`None` selector processed first — a referenced variable with no declaration
under any selector forces the final result of `_try_to_update_version` to
`False`, whatever later selectors do; (b) a referenced variable that is
declared somewhere but not visible under the active selector only skips that
selector: the state is unchanged and the remaining selectors are processed
exactly as if the skipped one had not existed. -/
theorem undeclared_var_fails_when_checked :
    (∀ (hashUrl : String → String → Option String) (gen : String → List String)
        (ht : String) (vars : Jinja2Vars) (src : Src) (uval : MVal) (hstr : String)
        (b : Bool) (v : Jinja2Vars) (s : Src),
      dictLookup src "url" = some uval →
      dictLookup src ht = some (.s hstr) →
      (∃ var ∈ varSetFor uval hstr, gen_key_selector vars var = []) →
      try_to_update_version hashUrl gen vars src ht = .ok (b, v, s) →
      b = false) ∧
    (∀ (hashUrl : String → String → Option String) (gen : String → List String)
        (ht : String) (vars : Jinja2Vars) (src : Src) (uval : MVal) (hstr : String)
        (u1 : Bool) (sels' : List (Option String)),
      hashlib_algorithms.contains ht = true →
      compile_all_selectors vars src = none :: sels' →
      dictLookup src "url" = some uval →
      dictLookup src ht = some (.s hstr) →
      varCheckLoop vars (contextFor vars none) true false (varSetFor uval hstr)
        = (u1, true) →
      try_to_update_version hashUrl gen vars src ht
        = sels'.foldlM (selStep hashUrl gen ht) (u1, vars, src)) := by
  constructor
  · intro hashUrl gen ht vars src uval hstr b v s hlu hlh hmiss h
    unfold try_to_update_version at h
    have hany : src.any (fun kv => strContains "url" kv.1) = true :=
      lookup_url_any src uval hlu
    simp only [hany, Bool.not_true, if_false] at h
    by_cases halg : hashlib_algorithms.contains ht = true
    · simp only [halg, Bool.not_true, if_false] at h
      rw [show compile_all_selectors vars src = none :: dedupAux [none]
        (((vars.map Prod.fst).filterMap (fun k =>
            if strContains CONDA_SELECTOR k then some (some (splitSecond CONDA_SELECTOR k))
            else none)) ++
          ((src.map Prod.fst).filterMap (fun k =>
            if strContains CONDA_SELECTOR k then some (some (splitSecond CONDA_SELECTOR k))
            else none))) from rfl] at h
      simp only [List.foldlM, Bind.bind, Except.bind] at h
      cases hstep : selStep hashUrl gen ht (true, vars, src) none with
      | error e => rw [hstep] at h; simp at h
      | ok acc =>
        rw [hstep] at h
        obtain ⟨b1, vars1, src1⟩ := acc
        have hb1 : b1 = false :=
          selStep_none_missing_var hashUrl gen ht true vars src uval hstr hlu hlh
            hmiss _ hstep
        subst hb1
        exact foldlM_selStep_false hashUrl gen ht _ vars1 src1 (b, v, s) h
    · simp only [halg, Bool.not_false] at h
      simp at h
      exact h.1
  · intro hashUrl gen ht vars src uval hstr u1 sels' halg hsels hlu hlh hskip
    unfold try_to_update_version
    have hany : src.any (fun kv => strContains "url" kv.1) = true :=
      lookup_url_any src uval hlu
    simp only [hany, halg, Bool.not_true, if_false]
    rw [hsels]
    simp only [List.foldlM, Bind.bind, Except.bind]
    have hstep : selStep hashUrl gen ht (true, vars, src) none = .ok (u1, vars, src) := by
      unfold selStep
      have hu : dictHas src (urlKeyFor src none) = true := by
        simp [dictHas, show urlKeyFor src none = "url" from rfl, hlu]
      have hh : dictHas src (hashKeyFor src none ht) = true := by
        simp [dictHas, show hashKeyFor src none ht = ht from rfl, hlh]
      simp only [hu, hh]
      simp only [Bind.bind, Except.bind]
      rw [show urlKeyFor src none = "url" from rfl,
          show hashKeyFor src none ht = ht from rfl]
      rw [hlu, hlh]
      dsimp only
      rw [hskip]
      simp
    rw [hstep]
    rfl

/-- Witness for C5 (amended): part (a) at a source whose url references the
nowhere-declared `foo` and whose hash field is present — the engine returns
`False`; part (b) at a document where `foo` is declared only under the `win`
selector — the `None` selector is skipped with untouched state and the `win`
selector still processed. -/
theorem undeclared_var_fails_when_checked_witness :
    dictLookup ([("url", MVal.s "\x7b\x7b foo \x7d\x7d/x.tar.gz"),
        ("sha256", MVal.s "abc")] : Src) "url" =
      some (MVal.s "\x7b\x7b foo \x7d\x7d/x.tar.gz") ∧
    (∃ var ∈ varSetFor (MVal.s "\x7b\x7b foo \x7d\x7d/x.tar.gz") "abc",
      gen_key_selector ([("version", "1.0")] : Jinja2Vars) var = []) ∧
    try_to_update_version (fun _ _ => none) (fun _ => []) [("version", "1.0")]
        [("url", MVal.s "\x7b\x7b foo \x7d\x7d/x.tar.gz"), ("sha256", MVal.s "abc")]
        "sha256" =
      .ok (false, [("version", "1.0")],
        [("url", MVal.s "\x7b\x7b foo \x7d\x7d/x.tar.gz"), ("sha256", MVal.s "abc")]) ∧
    (false : Bool) = false ∧
    varCheckLoop [("version", "1.0"), ("foo__###conda-selector###__win", "f")]
      (contextFor [("version", "1.0"), ("foo__###conda-selector###__win", "f")] none)
      true false (varSetFor (MVal.s "\x7b\x7b foo \x7d\x7d/x.tar.gz") "abc")
      = (true, true) ∧
    try_to_update_version (fun _ _ => none) (fun _ => [])
        [("version", "1.0"), ("foo__###conda-selector###__win", "f")]
        [("url", MVal.s "\x7b\x7b foo \x7d\x7d/x.tar.gz"), ("sha256", MVal.s "abc")]
        "sha256"
      = ([some "win"] : List (Option String)).foldlM
          (selStep (fun _ _ => none) (fun _ => []) "sha256")
          (true, [("version", "1.0"), ("foo__###conda-selector###__win", "f")],
           [("url", MVal.s "\x7b\x7b foo \x7d\x7d/x.tar.gz"), ("sha256", MVal.s "abc")]) :=
  ⟨rfl, ⟨"foo", by decide, rfl⟩, rfl,
   undeclared_var_fails_when_checked.1 (fun _ _ => none) (fun _ => []) "sha256"
     [("version", "1.0")]
     [("url", MVal.s "\x7b\x7b foo \x7d\x7d/x.tar.gz"), ("sha256", MVal.s "abc")]
     (MVal.s "\x7b\x7b foo \x7d\x7d/x.tar.gz") "abc" false [("version", "1.0")]
     [("url", MVal.s "\x7b\x7b foo \x7d\x7d/x.tar.gz"), ("sha256", MVal.s "abc")]
     rfl rfl ⟨"foo", by decide, rfl⟩ rfl,
   rfl,
   undeclared_var_fails_when_checked.2 (fun _ _ => none) (fun _ => []) "sha256"
     [("version", "1.0"), ("foo__###conda-selector###__win", "f")]
     [("url", MVal.s "\x7b\x7b foo \x7d\x7d/x.tar.gz"), ("sha256", MVal.s "abc")]
     (MVal.s "\x7b\x7b foo \x7d\x7d/x.tar.gz") "abc" true [some "win"]
     (by decide) rfl rfl rfl rfl⟩
/-! ## §12 Claim C6: byte-identical rewrite is a distinctly reported failure -/

/-- C6: when the source updates succeed but the round-tripped document with
the old version restored is byte-identical to the original text,
`Version.migrate` treats this as a failure: nothing is written, the empty
uid is returned, and the distinct "but the code indicates an update was
done" message is logged before the generic no-change message. -/
theorem noop_rewrite_rejected (hashUrl : String → String → Option String)
    (gen : String → List String) (dump : CondaMetaYAML → String)
    (cmeta : CondaMetaYAML) (nv ht : String) (old_version : String)
    (cmeta2 : CondaMetaYAML) (k : String) (ks : List String)
    (hgit : recipe_has_git_url cmeta = false)
    (hver : dictLookup cmeta.jinja2_vars "version" = some old_version)
    (hkeys : gen_key_selector cmeta.meta "source" = k :: ks)
    (hms : migrateSources hashUrl gen ht (k :: ks) true
      (CondaMetaYAML.mk cmeta.meta
        (dictSet cmeta.jinja2_vars "version" (mangled_version cmeta nv)))
      = .ok (true, cmeta2))
    (hdump : dump (CondaMetaYAML.mk cmeta2.meta
        (dictSet cmeta2.jinja2_vars "version" old_version))
      = dump cmeta) :
    version_migrate hashUrl gen dump cmeta nv ht =
      .ok ⟨none, false,
        ["Recipe did not change in version migration but the code indicates an update was done!",
         "Recipe did not change in version migration!"]⟩ := by
  unfold version_migrate
  simp only [hgit, Bool.false_eq_true, if_false]
  rw [hver]
  dsimp only
  rw [hkeys]
  simp only [List.isEmpty_cons, Bind.bind, Except.bind]
  simp only [Bool.false_eq_true, if_false]
  rw [hms]
  dsimp only
  simp only [if_pos rfl, hdump]
  rfl

/-- Witness for C6: a recipe whose single source re-hashes successfully
under a constant serializer, so the rewrite is byte-identical — the
migration returns nothing and logs the distinct no-op message. -/
theorem noop_rewrite_rejected_witness :
    migrateSources (fun _ _ => some "deadbeef") (fun _ => []) "sha256" ["source"]
      true
      (CondaMetaYAML.mk
        [("source", SrcsVal.single
          [("url", MVal.s "https://x/\x7b\x7b version \x7d\x7d.tar.gz"),
           ("sha256", MVal.s "abc")])]
        (dictSet [("version", "1.0")] "version"
          (mangled_version
            ⟨[("source", SrcsVal.single
              [("url", MVal.s "https://x/\x7b\x7b version \x7d\x7d.tar.gz"),
               ("sha256", MVal.s "abc")])], [("version", "1.0")]⟩ "1.2")))
      = .ok (true,
        ⟨[("source", SrcsVal.single
          [("url", MVal.s "https://x/\x7b\x7b version \x7d\x7d.tar.gz"),
           ("sha256", MVal.s "deadbeef")])], [("version", "1.2")]⟩) ∧
    version_migrate (fun _ _ => some "deadbeef") (fun _ => []) (fun _ => "")
      ⟨[("source", SrcsVal.single
        [("url", MVal.s "https://x/\x7b\x7b version \x7d\x7d.tar.gz"),
         ("sha256", MVal.s "abc")])], [("version", "1.0")]⟩ "1.2" "sha256" =
      .ok ⟨none, false,
        ["Recipe did not change in version migration but the code indicates an update was done!",
         "Recipe did not change in version migration!"]⟩ :=
  ⟨rfl,
   noop_rewrite_rejected (fun _ _ => some "deadbeef") (fun _ => []) (fun _ => "")
     ⟨[("source", SrcsVal.single
       [("url", MVal.s "https://x/\x7b\x7b version \x7d\x7d.tar.gz"),
        ("sha256", MVal.s "abc")])], [("version", "1.0")]⟩ "1.2" "sha256" "1.0"
     ⟨[("source", SrcsVal.single
       [("url", MVal.s "https://x/\x7b\x7b version \x7d\x7d.tar.gz"),
        ("sha256", MVal.s "deadbeef")])], [("version", "1.2")]⟩
     "source" [] rfl rfl rfl rfl rfl⟩
/-! ## §13 Claim C8: when the recorded build header is invalidated -/

/-- C8 counterexample: in `build:` / compiler line / `number:` the line
immediately following the `build:` header is a compiler declaration, not a
non-requirement key, yet the recorded `build:` index is still reset to 0 —
the pending flag survives the compiler line and the reset fires one line
later. -/
theorem build_reset_not_immediate :
    scanSection ["package:\n", "build:\n",
        "  - \x7b\x7b compiler(\"c\") \x7d\x7d\n", "  number: 0\n"] =
      .ok ⟨0, 2, 0, 0, 0, 0, 0, 0, "  ", "", "", "", "", "", false⟩ ∧
    nonreqKeyMatch "  - \x7b\x7b compiler(\"c\") \x7d\x7d\n" = false ∧
    secHeaderMatch "build" "build:\n" = true ∧
    (⟨0, 2, 0, 0, 0, 0, 0, 0, "  ", "", "", "", "", "", false⟩ : ScanState).lineBuild
      = 0 :=
  ⟨rfl, rfl, rfl, rfl⟩

/-- C8 (amended): the scanner's `build:` index is reset to 0 exactly at the
first line that *falls through* the whole `elif` chain while the pending
flag is set and matches a non-requirement key — a compiler declaration or
another section header between the `build:` header and that line keeps the
flag (and the index) alive, so the reset need not happen on the line
immediately following the header.  Conjuncts: (1) a `build:` header records
the index and raises the flag; (2) a line matched by an earlier branch (here
the plain-C compiler case) preserves both the flag and the index; (3) a
fall-through line resets the index iff it matches a non-requirement key,
clearing the flag either way; (4) in every case, the index is either
preserved, set by a `build:` header, or reset to 0 under the flag with a
non-requirement match. -/
theorem build_reset_characterization :
    (∀ (i : Nat) (line : String) (st : ScanState),
      secHeaderMatch "build" line = true →
      scanStep i line st =
        .ok ({ st with lastWasBuild := true, lineBuild := i }, false)) ∧
    (∀ (i : Nat) (line : String) (st : ScanState) (ind : String)
        (sel : Option String),
      secHeaderMatch "build" line = false →
      compilerSearch langsC line = true →
      compilerMatch langsC line = some (ind, sel) →
      scanStep i line st =
        .ok ({ st with lineCompilerC := i, indentC := ind,
                       selectorC := sel.getD "" }, false)) ∧
    (∀ (i : Nat) (line : String) (st : ScanState),
      secHeaderMatch "build" line = false →
      compilerSearch langsC line = false →
      compilerSearch langsM2c line = false →
      compilerSearch langsOther line = false →
      secHeaderMatch "host" line = false →
      secHeaderMatch "run" line = false →
      secHeaderMatch "run_constrained" line = false →
      secHeaderMatch "test" line = false →
      st.lastWasBuild = true →
      scanStep i line st = .ok
        ((if nonreqKeyMatch line then { st with lineBuild := 0, lastWasBuild := false }
          else { st with lastWasBuild := false }), false)) ∧
    (∀ (i : Nat) (line : String) (st : ScanState) (out : ScanState) (stop : Bool),
      scanStep i line st = .ok (out, stop) →
      out.lineBuild = st.lineBuild ∨
      (secHeaderMatch "build" line = true ∧ out.lineBuild = i) ∨
      (st.lastWasBuild = true ∧ nonreqKeyMatch line = true ∧ out.lineBuild = 0)) := by
  refine ⟨?_, ?_, ?_, ?_⟩
  · intro i line st h
    simp [scanStep, h]
  · intro i line st ind sel hb hc hmm
    simp [scanStep, hb, hc, hmm]
  · intro i line st hb hc hm ho hh hr hrc ht hflag
    by_cases hn : nonreqKeyMatch line = true <;>
      simp [scanStep, hb, hc, hm, ho, hh, hr, hrc, ht, hflag, hn]
  · intro i line st out stop h
    unfold scanStep at h
    by_cases h1 : secHeaderMatch "build" line = true
    · simp only [h1, if_pos rfl, if_true] at h
      simp at h
      right; left
      exact ⟨h1, by rw [← h.1]⟩
    · simp only [h1, if_false] at h
      by_cases h2 : compilerSearch langsC line = true
      · simp only [h2, if_pos rfl, if_true] at h
        cases hcm : compilerMatch langsC line with
        | none => rw [hcm] at h; simp at h
        | some p =>
          rw [hcm] at h
          obtain ⟨ind, sel⟩ := p
          simp at h
          left
          rw [← h.1]
      · simp only [h2, if_false] at h
        by_cases h3 : compilerSearch langsM2c line = true
        · simp only [h3, if_pos rfl, if_true] at h
          cases hcm : compilerMatch langsM2c line with
          | none => rw [hcm] at h; simp at h
          | some p =>
            rw [hcm] at h
            obtain ⟨ind, sel⟩ := p
            simp at h
            left
            rw [← h.1]
        · simp only [h3, if_false] at h
          by_cases h4 : compilerSearch langsOther line = true
          · simp only [h4, if_pos rfl, if_true] at h
            cases hcm : compilerMatch langsOther line with
            | none => rw [hcm] at h; simp at h
            | some p =>
              rw [hcm] at h
              obtain ⟨ind, sel⟩ := p
              simp at h
              left
              rw [← h.1]
          · simp only [h4, if_false] at h
            by_cases h5 : secHeaderMatch "host" line = true
            · simp only [h5, if_pos rfl, if_true] at h
              simp at h
              left
              rw [← h.1]
            · simp only [h5, if_false] at h
              by_cases h6 : secHeaderMatch "run" line = true
              · simp only [h6, if_pos rfl, if_true] at h
                simp at h
                left
                rw [← h.1]
              · simp only [h6, if_false] at h
                by_cases h7 : secHeaderMatch "run_constrained" line = true
                · simp only [h7, if_pos rfl, if_true] at h
                  simp at h
                  left
                  rw [← h.1]
                · simp only [h7, if_false] at h
                  by_cases h8 : secHeaderMatch "test" line = true
                  · simp only [h8, if_pos rfl, if_true] at h
                    simp at h
                    left
                    rw [← h.1]
                  · simp only [h8, if_false] at h
                    by_cases h9 : st.lastWasBuild = true
                    · simp only [h9, if_pos rfl, if_true] at h
                      by_cases h10 : nonreqKeyMatch line = true
                      · simp only [h10, if_pos rfl, if_true] at h
                        simp at h
                        right; right
                        exact ⟨h9, h10, by rw [← h.1]⟩
                      · simp only [h10, if_false] at h
                        simp at h
                        left
                        rw [← h.1]
                    · simp only [h9, if_false] at h
                      simp at h
                      left
                      rw [← h.1]

/-- Witness for C8 (amended): the four conjuncts applied at concrete lines:
a `build:` header, the compiler line of the counterexample document, a
`number:` line reaching the fall-through with the flag set, and the
only-if direction at that reset step. -/
theorem build_reset_characterization_witness :
    scanStep 1 "build:\n" ScanState.init =
      .ok (⟨1, 0, 0, 0, 0, 0, 0, 0, "", "", "", "", "", "", true⟩, false) ∧
    scanStep 2 "  - \x7b\x7b compiler(\"c\") \x7d\x7d\n"
        ⟨1, 0, 0, 0, 0, 0, 0, 0, "", "", "", "", "", "", true⟩ =
      .ok (⟨1, 2, 0, 0, 0, 0, 0, 0, "  ", "", "", "", "", "", true⟩, false) ∧
    scanStep 3 "  number: 0\n"
        ⟨1, 2, 0, 0, 0, 0, 0, 0, "  ", "", "", "", "", "", true⟩ =
      .ok (⟨0, 2, 0, 0, 0, 0, 0, 0, "  ", "", "", "", "", "", false⟩, false) ∧
    ((⟨1, 2, 0, 0, 0, 0, 0, 0, "  ", "", "", "", "", "", true⟩ : ScanState).lineBuild
        = 1 ∧
      (1 : Nat) ≠ 0) :=
  ⟨build_reset_characterization.1 1 "build:\n" ScanState.init rfl,
   build_reset_characterization.2.1 2 "  - \x7b\x7b compiler(\"c\") \x7d\x7d\n"
     ⟨1, 0, 0, 0, 0, 0, 0, 0, "", "", "", "", "", "", true⟩ "  " none rfl rfl rfl,
   by
    have := build_reset_characterization.2.2.1 3 "  number: 0\n"
      ⟨1, 2, 0, 0, 0, 0, 0, 0, "  ", "", "", "", "", "", true⟩
      rfl rfl rfl rfl rfl rfl rfl rfl rfl
    simpa using this,
   ⟨rfl, by decide⟩⟩
/-! ## §14 Shared character-level lemmas for the patcher claims -/
theorem stdlibAt_lit (suf : List Char) :
    stdlibAt (stdlibJinjaChars ++ suf) = true := rfl

theorem eatToken_eq : ∀ (pat cs rest : List Char), eatToken pat cs = some rest →
    cs = pat ++ rest := by
  intro pat
  induction pat with
  | nil => intro cs rest h; simp [eatToken] at h; simp [h]
  | cons p ps ih =>
    intro cs rest h
    cases cs with
    | nil => simp [eatToken] at h
    | cons c cs' =>
      simp only [eatToken] at h
      by_cases hpc : p = c
      · subst hpc
        simp at h
        simp [ih cs' rest h]
      · simp [hpc] at h

theorem leadsWith_self_append : ∀ (n r : List Char), leadsWith n (n ++ r) = true := by
  intro n
  induction n with
  | nil => intro r; rfl
  | cons c cs ih => intro r; simp [leadsWith, ih]

theorem anySuffix_of_self (p : List Char → Bool) (l : List Char) (h : p l = true) :
    anySuffix p l = true := by
  cases l with
  | nil => simpa [anySuffix] using h
  | cons c cs => simp [anySuffix, h]

theorem anySuffix_mono (p q : List Char → Bool)
    (hpq : ∀ t, p t = true → anySuffix q t = true) :
    ∀ l, anySuffix p l = true → anySuffix q l = true := by
  intro l
  induction l with
  | nil => intro h; exact hpq [] (by simpa [anySuffix] using h)
  | cons c cs ih =>
    intro h
    simp only [anySuffix, Bool.or_eq_true] at h
    rcases h with h | h
    · exact hpq _ h
    · have := ih h
      cases hq : q (c :: cs) <;> simp [anySuffix, hq, this]

theorem anySuffix_append_left (p : List Char → Bool) :
    ∀ (pre l : List Char), anySuffix p l = true → anySuffix p (pre ++ l) = true := by
  intro pre
  induction pre with
  | nil => intro l h; simpa using h
  | cons c cs ih =>
    intro l h
    have := ih l h
    cases hp : p (c :: (cs ++ l)) <;> simp [anySuffix, hp, this]

theorem pat_stdlib_mk (pre suf : List Char) :
    pat_stdlib_search (String.mk (pre ++ (stdlibJinjaChars ++ suf))) = true := by
  unfold pat_stdlib_search
  show anySuffix stdlibAt (pre ++ (stdlibJinjaChars ++ suf)) = true
  exact anySuffix_append_left stdlibAt pre _
    (anySuffix_of_self stdlibAt _ rfl)

theorem sysroot_contains (l : String) (h : pat_sysroot_search l = true) :
    strContains "sysroot_linux-64" l = true := by
  unfold pat_sysroot_search at h
  show anySuffix (leadsWith "sysroot_linux-64".toList) l.toList = true
  refine anySuffix_mono sysrootAt _ ?_ l.toList h
  intro t ht
  unfold sysrootAt at ht
  cases he : eatToken ['-', ' ', 's', 'y', 's', 'r', 'o', 'o', 't', '_', 'l',
      'i', 'n', 'u', 'x', '-', '6', '4'] t with
  | none =>
    rw [show eatStr "- sysroot_linux-64" t
      = eatToken ['-', ' ', 's', 'y', 's', 'r', 'o', 'o', 't', '_', 'l',
          'i', 'n', 'u', 'x', '-', '6', '4'] t from rfl, he] at ht
    simp at ht
  | some rest =>
    have heq := eatToken_eq _ _ _ he
    rw [heq]
    show anySuffix (leadsWith "sysroot_linux-64".toList)
      (['-', ' '] ++ ("sysroot_linux-64".toList ++ rest)) = true
    exact anySuffix_append_left _ ['-', ' '] _
      (anySuffix_of_self _ _ (leadsWith_self_append _ _))

theorem replacer_id (to_that : String) (budget : Option Nat) :
    ∀ (lines : List String),
      (∀ l ∈ lines, strContains "sysroot_linux-64" l = false) →
      replacerAux to_that budget lines = lines := by
  intro lines
  induction lines generalizing budget with
  | nil => intro _; rfl
  | cons l rest ih =>
    intro h
    have hl : strContains "sysroot_linux-64" l = false := h l (by simp)
    have hrest : ∀ x ∈ rest, strContains "sysroot_linux-64" x = false :=
      fun x hx => h x (by simp [hx])
    simp [replacerAux, hl, ih budget hrest]

theorem mem_insertAt (l : List String) (i : Nat) (x y : String)
    (h : y ∈ insertAt l i x) : y ∈ l ∨ y = x := by
  unfold insertAt at h
  rcases List.mem_append.1 h with h1 | h1
  · rcases List.mem_append.1 h1 with h2 | h2
    · exact Or.inl (List.take_subset i l h2)
    · simp at h2; exact Or.inr h2
  · exact Or.inl (List.drop_subset i l h1)
/-! ## §15 Claim C7: the two inserted declarations and their selectors -/

/-- C7 counterexample: a section whose plain-C compiler line has **no**
selector while the m2w64 line carries `# [win]` — the line inserted
immediately after the plain-C compiler nevertheless carries `# [win]`,
not the plain-C line's (absent) selector. -/
theorem first_insert_carries_m2w64_selector :
    process_section "global" ⟨[], ⟨[some "c_compiler_stub"]⟩⟩
        ["requirements:\n", "  build:\n",
         "    - \x7b\x7b compiler(\"c\") \x7d\x7d\n",
         "    - \x7b\x7b compiler(\"m2w64_c\") \x7d\x7d  # [win]\n",
         "  host:\n", "    - python\n"] =
      .ok (["requirements:\n", "  build:\n",
            "    - \x7b\x7b compiler(\"c\") \x7d\x7d\n",
            "    - \x7b\x7b stdlib(\"c\") \x7d\x7d    # [win]\n",
            "    - \x7b\x7b compiler(\"m2w64_c\") \x7d\x7d  # [win]\n",
            "    - \x7b\x7b stdlib(\"c\") \x7d\x7d          # [win]\n",
            "  host:\n", "    - python\n"], false) ∧
    compilerMatch langsC "    - \x7b\x7b compiler(\"c\") \x7d\x7d\n"
      = some ("    ", none) ∧
    strContains "# [win]" "    - \x7b\x7b stdlib(\"c\") \x7d\x7d    # [win]\n"
      = true :=
  ⟨rfl, rfl, rfl⟩

/-- C7 (amended): when the scan of a section finds both a plain-C compiler
line and an m2w64 compiler line (the plain-C one first), the patcher inserts
two stdlib declaration lines: the first immediately after the plain-C line,
the second immediately after the m2w64 line.  The second carries the m2w64
line's own selector; the first carries the plain-C line's selector only when
that line has one, otherwise it falls back to the m2w64 (or other-compiler)
selector — it does not stay selector-free as the claim requires. -/
theorem both_compilers_two_inserts (attrs : MetaYamlAttrs) (lines : List String) (st : ScanState)
    (hneeds : attrs.requirements.build.any
      (fun x => pat_stub_search (x.getD "")) = true)
    (hscan : scanSection lines = .ok st)
    (hb : st.lineBuild ≠ 0)
    (hc : st.lineCompilerC ≠ 0) (hm : st.lineCompilerM2c ≠ 0)
    (hlt : st.lineCompilerC < st.lineCompilerM2c)
    (hind : st.indentC ≠ "")
    (hli : firstNonzero [st.lineHost, st.lineRun, st.lineConstrain, st.lineTest] ≠ 0)
    (hnosys : ∀ l ∈ lines, strContains "sysroot_linux-64" l = false)
    (hns1 : strContains "sysroot_linux-64"
      (st.indentC ++ stdlibDecl ++
        (if pyOrStr (pyOrStr st.selectorC st.selectorM2c) st.selectorOther = ""
         then "" else "  " ++ pyOrStr (pyOrStr st.selectorC st.selectorM2c)
           st.selectorOther) ++ "\n") = false)
    (hns2 : strContains "sysroot_linux-64"
      (st.indentC ++ stdlibDecl ++
        (if st.selectorM2c = "" then "" else "        " ++ st.selectorM2c) ++ "\n")
      = false) :
    process_section "global" attrs lines =
      .ok (insertAt
        (insertAt lines (st.lineCompilerC + 1)
          (st.indentC ++ stdlibDecl ++
            (if pyOrStr (pyOrStr st.selectorC st.selectorM2c) st.selectorOther = ""
             then "" else "  " ++ pyOrStr (pyOrStr st.selectorC st.selectorM2c)
               st.selectorOther) ++ "\n"))
        (st.lineCompilerM2c + 2)
        (st.indentC ++ stdlibDecl ++
          (if st.selectorM2c = "" then "" else "        " ++ st.selectorM2c) ++ "\n"),
        false) := by
  unfold process_section
  simp only [if_pos rfl, Bind.bind, Except.bind]
  rw [hscan]
  dsimp only
  rw [hneeds]
  simp only [Bool.true_or, Bool.not_true, if_false]
  simp only [if_true, not_true, if_false]
  have hpy : pyOrStr (pyOrStr st.indentC st.indentM2c) st.indentOther = st.indentC := by
    simp [pyOrStr, hind]
  rw [hpy]
  rw [if_neg hind]
  rw [if_neg hli]
  have hfn : firstNonzero [st.lineCompilerC, st.lineCompilerM2c, st.lineCompilerOther]
      = st.lineCompilerC := by simp [firstNonzero, hc]
  rw [hfn]
  rw [if_pos hc]
  rw [if_neg hb]
  have hcm : (decide (st.lineCompilerC ≠ 0) && decide (st.lineCompilerM2c ≠ 0)) = true := by
    simp [hc, hm]
  rw [if_pos hcm]
  rw [if_pos hlt]
  have hmem2 : ∀ l ∈ insertAt (insertAt lines (st.lineCompilerC + 1)
        (st.indentC ++ stdlibDecl ++
              (if pyOrStr (pyOrStr st.selectorC st.selectorM2c) st.selectorOther = ""
               then "" else "  " ++ pyOrStr (pyOrStr st.selectorC st.selectorM2c)
                 st.selectorOther) ++ "\n"))
      (st.lineCompilerM2c + 1 + 1)
        (st.indentC ++ stdlibDecl ++
              (if st.selectorM2c = "" then "" else "        " ++ st.selectorM2c) ++ "\n"),
      strContains "sysroot_linux-64" l = false := by
    intro l hl
    rcases mem_insertAt _ _ _ _ hl with h1 | h1
    · rcases mem_insertAt _ _ _ _ h1 with h2 | h2
      · exact hnosys l h2
      · subst h2; exact hns1
    · subst h1; exact hns2
  have hrep := replacer_id "" none _ hmem2
  have hany : (insertAt (insertAt lines (st.lineCompilerC + 1)
        (st.indentC ++ stdlibDecl ++
              (if pyOrStr (pyOrStr st.selectorC st.selectorM2c) st.selectorOther = ""
               then "" else "  " ++ pyOrStr (pyOrStr st.selectorC st.selectorM2c)
                 st.selectorOther) ++ "\n"))
      (st.lineCompilerM2c + 1 + 1)
        (st.indentC ++ stdlibDecl ++
              (if st.selectorM2c = "" then "" else "        " ++ st.selectorM2c) ++ "\n")).any
      pat_sysroot_search = false := by
    rw [List.any_eq_false]
    intro l hl
    intro hcon
    have := sysroot_contains l hcon
    rw [hmem2 l hl] at this
    cases this
  rw [show replacer (insertAt (insertAt lines (st.lineCompilerC + 1)
        (st.indentC ++ stdlibDecl ++
              (if pyOrStr (pyOrStr st.selectorC st.selectorM2c) st.selectorOther = ""
               then "" else "  " ++ pyOrStr (pyOrStr st.selectorC st.selectorM2c)
                 st.selectorOther) ++ "\n"))
      (st.lineCompilerM2c + 1 + 1)
        (st.indentC ++ stdlibDecl ++
              (if st.selectorM2c = "" then "" else "        " ++ st.selectorM2c) ++ "\n")) "" none
    = insertAt (insertAt lines (st.lineCompilerC + 1)
        (st.indentC ++ stdlibDecl ++
              (if pyOrStr (pyOrStr st.selectorC st.selectorM2c) st.selectorOther = ""
               then "" else "  " ++ pyOrStr (pyOrStr st.selectorC st.selectorM2c)
                 st.selectorOther) ++ "\n"))
      (st.lineCompilerM2c + 1 + 1)
        (st.indentC ++ stdlibDecl ++
              (if st.selectorM2c = "" then "" else "        " ++ st.selectorM2c) ++ "\n") from hrep]
  rw [hany]
  rfl

/-- Witness for C7 (amended): the two-insert theorem applied at the
counterexample document. -/
theorem both_compilers_two_inserts_witness :
    scanSection ["requirements:\n", "  build:\n",
        "    - \x7b\x7b compiler(\"c\") \x7d\x7d\n",
        "    - \x7b\x7b compiler(\"m2w64_c\") \x7d\x7d  # [win]\n",
        "  host:\n", "    - python\n"] =
      .ok ⟨1, 2, 3, 0, 4, 0, 0, 0, "    ", "    ", "", "", "  # [win]", "", false⟩ ∧
    process_section "global" ⟨[], ⟨[some "c_compiler_stub"]⟩⟩
        ["requirements:\n", "  build:\n",
         "    - \x7b\x7b compiler(\"c\") \x7d\x7d\n",
         "    - \x7b\x7b compiler(\"m2w64_c\") \x7d\x7d  # [win]\n",
         "  host:\n", "    - python\n"] =
      .ok (insertAt
        (insertAt ["requirements:\n", "  build:\n",
            "    - \x7b\x7b compiler(\"c\") \x7d\x7d\n",
            "    - \x7b\x7b compiler(\"m2w64_c\") \x7d\x7d  # [win]\n",
            "  host:\n", "    - python\n"] 3
          ("    " ++ stdlibDecl ++ "  " ++ "  # [win]" ++ "\n"))
        5 ("    " ++ stdlibDecl ++ "        " ++ "  # [win]" ++ "\n"), false) :=
  ⟨rfl, by
    have := both_compilers_two_inserts ⟨[], ⟨[some "c_compiler_stub"]⟩⟩
      ["requirements:\n", "  build:\n",
       "    - \x7b\x7b compiler(\"c\") \x7d\x7d\n",
       "    - \x7b\x7b compiler(\"m2w64_c\") \x7d\x7d  # [win]\n",
       "  host:\n", "    - python\n"]
      ⟨1, 2, 3, 0, 4, 0, 0, 0, "    ", "    ", "", "", "  # [win]", "", false⟩
      rfl rfl (by decide) (by decide) (by decide) (by decide) (by decide)
      (by decide) (by decide) rfl rfl
    exact this.trans (by rfl)⟩

/-! ## §16 C3: the patcher's output against its own filter -/

theorem leadsWith_take (n : List Char) : ∀ (l : List Char), leadsWith n l = true →
    l = n ++ l.drop n.length := by
  induction n with
  | nil => intro l _; simp
  | cons p ps ihn =>
    intro l hl
    cases l with
    | nil => simp [leadsWith] at hl
    | cons c cs =>
      simp only [leadsWith, Bool.and_eq_true, decide_eq_true_eq] at hl
      obtain ⟨rfl, hl2⟩ := hl
      simp only [List.cons_append, List.length_cons, List.drop_succ_cons]
      rw [← ihn cs hl2]

theorem splitAtFirst_eq (n : List Char) : ∀ (l pre post : List Char),
    splitAtFirst n l = some (pre, post) → l = pre ++ n ++ post := by
  intro l
  induction l with
  | nil =>
    intro pre post h
    unfold splitAtFirst at h
    by_cases hn : n = []
    · subst hn; simp at h; simp [h.1, h.2]
    · simp [hn] at h
  | cons c cs ih =>
    intro pre post h
    unfold splitAtFirst at h
    by_cases hl : leadsWith n (c :: cs) = true
    · rw [if_pos hl] at h
      injection h with h3
      cases h3
      simpa using leadsWith_take n (c :: cs) hl
    · simp only [hl, if_false, Bool.false_eq_true] at h
      cases hrec : splitAtFirst n cs with
      | none => rw [hrec] at h; exact absurd h (by simp)
      | some p =>
        obtain ⟨p1, p2⟩ := p
        rw [hrec] at h
        injection h with h3
        cases h3
        simpa using ih _ _ hrec

theorem splitAtFirst_min (n : List Char) : ∀ (l pre post : List Char),
    splitAtFirst n l = some (pre, post) →
    ∀ i, i < pre.length → leadsWith n (l.drop i) = false := by
  intro l
  induction l with
  | nil =>
    intro pre post h i hi
    unfold splitAtFirst at h
    by_cases hn : n = []
    · subst hn; simp at h; simp [h.1] at hi
    · simp [hn] at h
  | cons c cs ih =>
    intro pre post h i hi
    unfold splitAtFirst at h
    by_cases hl : leadsWith n (c :: cs) = true
    · rw [if_pos hl] at h
      injection h with h3
      cases h3
      simp at hi
    · simp only [hl, if_false, Bool.false_eq_true] at h
      cases hrec : splitAtFirst n cs with
      | none => rw [hrec] at h; simp at h
      | some p =>
        obtain ⟨p1, p2⟩ := p
        rw [hrec] at h
        injection h with h3
        cases h3
        cases i with
        | zero => simpa using hl
        | succ j =>
          simp only [List.length_cons, Nat.succ_lt_succ_iff] at hi
          simpa using ih _ _ hrec j hi

theorem splitAtFirst_isSome (n : List Char) : ∀ (l : List Char),
    (splitAtFirst n l).isSome = containsL n l := by
  intro l
  induction l with
  | nil =>
    unfold splitAtFirst containsL anySuffix
    by_cases hn : n = []
    · subst hn; simp [leadsWith]
    · cases n with
      | nil => simp at hn
      | cons a as => simp [leadsWith]
  | cons c cs ih =>
    unfold splitAtFirst containsL anySuffix
    by_cases hl : leadsWith n (c :: cs) = true
    · simp [hl]
    · simp only [hl, if_false, Bool.false_eq_true, Bool.false_or]
      cases hrec : splitAtFirst n cs with
      | none =>
        rw [hrec] at ih
        simpa [containsL] using ih
      | some p =>
        rw [hrec] at ih
        simpa [containsL] using ih

theorem leadsWith_long_indep (n : List Char) : ∀ (a b : List Char),
    n.length ≤ a.length → leadsWith n (a ++ b) = leadsWith n a := by
  induction n with
  | nil => intro a b _; simp [leadsWith]
  | cons p ps ihn =>
    intro a b hlen
    cases a with
    | nil => simp at hlen
    | cons c cs =>
      simp only [List.cons_append, leadsWith]
      rw [show cs.append b = cs ++ b from rfl, ihn cs b (by simpa using hlen)]

theorem leadsWith_spill (n : List Char) : ∀ (a b : List Char),
    leadsWith n (a ++ b) = true → a.length < n.length →
    leadsWith (n.drop a.length) b = true := by
  intro a
  induction a generalizing n with
  | nil => intro b h _; simpa using h
  | cons c cs ih =>
    intro b h hlen
    cases n with
    | nil => simp at hlen
    | cons p ps =>
      simp only [List.cons_append, leadsWith, Bool.and_eq_true] at h
      simp only [List.length_cons, List.drop_succ_cons]
      exact ih ps b h.2 (by simpa using hlen)

theorem leadsWith_false_of_head_not_mem (n a b : List Char) (x : Char)
    (hlen : a.length < n.length) (hb : b.head? = some x)
    (hx : x ∉ n) : leadsWith n (a ++ b) = false := by
  by_contra hc
  have htrue : leadsWith n (a ++ b) = true := by
    cases h : leadsWith n (a ++ b)
    · exact absurd h hc
    · rfl
  have hsp := leadsWith_spill n a b htrue hlen
  cases hd : n.drop a.length with
  | nil =>
    have : n.length ≤ a.length := by
      have := congrArg List.length hd
      simp at this
      omega
    omega
  | cons p ps =>
    cases b with
    | nil => simp at hb
    | cons y ys =>
      injection hb with hb1
      subst hb1
      rw [hd] at hsp
      simp only [leadsWith, Bool.and_eq_true, decide_eq_true_eq] at hsp
      apply hx
      have hpmem : p ∈ n.drop a.length := by rw [hd]; exact List.mem_cons_self p ps
      rw [hsp.1] at hpmem
      exact List.mem_of_mem_drop hpmem

theorem region_no_lead (n a b b' : List Char) (x : Char)
    (hfalse : leadsWith n (a ++ b) = false)
    (hb : b'.head? = some x) (hx : x ∉ n) :
    leadsWith n (a ++ b') = false := by
  rcases le_or_lt n.length a.length with hle | hlt
  · rw [leadsWith_long_indep n a b' hle, ← leadsWith_long_indep n a b hle]
    exact hfalse
  · exact leadsWith_false_of_head_not_mem n a b' x hlt hb hx

theorem splitAtFirst_append_shift (n : List Char) : ∀ (xs ys : List Char),
    (∀ i, i < xs.length → leadsWith n ((xs ++ ys).drop i) = false) →
    splitAtFirst n (xs ++ ys) =
      (splitAtFirst n ys).map (fun p => (xs ++ p.1, p.2)) := by
  intro xs
  induction xs with
  | nil =>
    intro ys _
    cases h : splitAtFirst n ys with
    | none => simp [h]
    | some p => simp [h]
  | cons c cs ih =>
    intro ys h
    have h0 : leadsWith n (c :: (cs ++ ys)) = false := by
      simpa using h 0 (by simp)
    have hrest : ∀ i, i < cs.length → leadsWith n ((cs ++ ys).drop i) = false := by
      intro i hi
      have := h (i + 1) (by simp; omega)
      simpa using this
    have hmain := ih ys hrest
    show splitAtFirst n (c :: (cs ++ ys)) = _
    cases hsp : splitAtFirst n ys with
    | none =>
      rw [hsp] at hmain
      simp only [Option.map] at hmain
      simp only [Option.map]
      unfold splitAtFirst
      rw [if_neg (by simp [h0]), hmain]
    | some p =>
      rw [hsp] at hmain
      simp only [Option.map] at hmain
      simp only [Option.map]
      unfold splitAtFirst
      rw [if_neg (by simp [h0]), hmain]
      simp

theorem lbr_not_mem_sysroot : lbr ∉ "sysroot_linux-64".toList := by decide

theorem stdlib_len : stdlibJinjaChars.length = 17 := by decide

theorem sysroot_split_nil : splitAtFirst "sysroot_linux-64".toList [] = none := by decide

theorem sysroot_split_newline : splitAtFirst "sysroot_linux-64".toList ['\n'] = none := by
  decide

theorem drop_append_len {α : Type} : ∀ (a b : List α) (j : Nat),
    (a ++ b).drop (a.length + j) = b.drop j := by
  intro a
  induction a with
  | nil => intro b j; simp
  | cons x xs ih => intro b j; rw [List.cons_append, List.length_cons, Nat.succ_add, List.drop_succ_cons]; exact ih b j

theorem stdlib_region (j : Nat) (hj : j < 17) (ys : List Char) :
    leadsWith "sysroot_linux-64".toList (stdlibJinjaChars.drop j ++ ys) = false := by
  interval_cases j <;>
    simp [stdlibJinjaChars, lbr, rbr, leadsWith, Char.ofNat]

theorem splitAtFirst_block (A nl : List Char)
    (hA : ∀ i, i < A.length →
      leadsWith "sysroot_linux-64".toList (((A ++ stdlibJinjaChars) ++ nl).drop i) = false) :
    splitAtFirst "sysroot_linux-64".toList ((A ++ stdlibJinjaChars) ++ nl) =
      (splitAtFirst "sysroot_linux-64".toList nl).map
        (fun p => ((A ++ stdlibJinjaChars) ++ p.1, p.2)) := by
  apply splitAtFirst_append_shift
  intro i hi
  by_cases hia : i < A.length
  · exact hA i hia
  · have hj : i - A.length < 17 := by
      have := stdlib_len
      simp [List.length_append, stdlib_len] at hi
      omega
    have hdec : i = A.length + (i - A.length) := by omega
    rw [hdec]
    rw [List.append_assoc]
    rw [drop_append_len A (stdlibJinjaChars ++ nl) (i - A.length)]
    rw [List.drop_append_of_le_length (by rw [stdlib_len]; omega)]
    exact stdlib_region (i - A.length) hj nl

theorem containsL_block_false (A nl : List Char)
    (hA : ∀ i, i < A.length →
      leadsWith "sysroot_linux-64".toList (((A ++ stdlibJinjaChars) ++ nl).drop i) = false)
    (hnl : splitAtFirst "sysroot_linux-64".toList nl = none) :
    containsL "sysroot_linux-64".toList ((A ++ stdlibJinjaChars) ++ nl) = false := by
  have h1 := splitAtFirst_isSome "sysroot_linux-64".toList ((A ++ stdlibJinjaChars) ++ nl)
  rw [splitAtFirst_block A nl hA, hnl] at h1
  simpa using h1.symm

theorem pat_stdlib_of_toList (s : String) (pre suf : List Char)
    (h : s.toList = pre ++ (stdlibJinjaChars ++ suf)) : pat_stdlib_search s = true := by
  unfold pat_stdlib_search
  rw [h]
  exact pat_stdlib_mk pre suf

theorem stripEmpty_stdlib (s : String) (pre suf : List Char)
    (h : s.toList = pre ++ (stdlibJinjaChars ++ suf)) : stripEmpty s = false := by
  unfold stripEmpty
  rw [h]
  cases hall : (pre ++ (stdlibJinjaChars ++ suf)).all isPySpace
  · rfl
  · exfalso
    rw [List.all_eq_true] at hall
    have := hall lbr (by simp [stdlibJinjaChars])
    exact absurd this (by decide)

theorem replacerAux_zero (to_that : String) : ∀ (lines : List String),
    replacerAux to_that (some 0) lines = lines := by
  intro lines
  induction lines with
  | nil => rfl
  | cons l ls ih =>
    unfold replacerAux
    simp only [ne_eq, not_true_eq_false, Bool.and_false, Bool.false_eq_true,
      if_false, ih]
    rw [if_neg (by simp)]

theorem replacer_keeps (to_that : String) : ∀ (budget : Option Nat)
    (lines : List String) (l : String), l ∈ lines →
    strContains "sysroot_linux-64" l = false →
    l ∈ replacerAux to_that budget lines := by
  intro budget lines
  induction lines generalizing budget with
  | nil => intro l h; simp at h
  | cons x xs ih =>
    intro l hmem hfree
    rcases List.mem_cons.mp hmem with rfl | htail
    · unfold replacerAux
      rw [if_neg (by simp [hfree])]
      exact List.mem_cons_self _ _
    · unfold replacerAux
      by_cases hx : (strContains "sysroot_linux-64" x && budget ≠ some 0) = true
      · rw [if_pos hx]
        by_cases hstrip : stripEmpty (replacerLine to_that x) = true
        · rw [if_pos hstrip]
          exact ih _ l htail hfree
        · rw [if_neg hstrip]
          exact List.mem_cons.mpr (Or.inr (ih _ l htail hfree))
      · rw [if_neg hx]
        exact List.mem_cons.mpr (Or.inr (ih _ l htail hfree))

theorem replacer_mem_replaced (to_that : String) : ∀ (lines : List String)
    (l : String), l ∈ lines →
    strContains "sysroot_linux-64" l = true →
    stripEmpty (replacerLine to_that l) = false →
    replacerLine to_that l ∈ replacerAux to_that none lines := by
  intro lines
  induction lines with
  | nil => intro l h; simp at h
  | cons x xs ih =>
    intro l hmem hhit hstrip
    rcases List.mem_cons.mp hmem with rfl | htail
    · unfold replacerAux
      rw [if_pos (by simp [hhit])]
      simp only [Option.map]
      rw [if_neg (by simp [hstrip])]
      exact List.mem_cons_self _ _
    · unfold replacerAux
      by_cases hx : (strContains "sysroot_linux-64" x && (none : Option Nat) ≠ some 0) = true
      · rw [if_pos hx]
        simp only [Option.map]
        by_cases hs2 : stripEmpty (replacerLine to_that x) = true
        · rw [if_pos hs2]
          exact ih l htail hhit hstrip
        · rw [if_neg hs2]
          exact List.mem_cons.mpr (Or.inr (ih l htail hhit hstrip))
      · rw [if_neg hx]
        exact List.mem_cons.mpr (Or.inr (ih l htail hhit hstrip))

theorem replacer_first (to_that : String) : ∀ (lines : List String),
    lines.any (fun l => strContains "sysroot_linux-64" l) = true →
    ∃ pre lf post, lines = pre ++ lf :: post ∧
      (∀ l ∈ pre, strContains "sysroot_linux-64" l = false) ∧
      strContains "sysroot_linux-64" lf = true ∧
      (stripEmpty (replacerLine to_that lf) = false →
        replacerAux to_that (some 1) lines =
          pre ++ replacerLine to_that lf :: post) := by
  intro lines
  induction lines with
  | nil => intro h; simp at h
  | cons x xs ih =>
    intro h
    by_cases hx : strContains "sysroot_linux-64" x = true
    · refine ⟨[], x, xs, by simp, by simp, hx, ?_⟩
      intro hstrip
      unfold replacerAux
      rw [if_pos (by simp [hx])]
      simp only [Option.map]
      rw [if_neg (by simp [hstrip])]
      simp [replacerAux_zero]
    · have hxs : xs.any (fun l => strContains "sysroot_linux-64" l) = true := by
        rw [List.any_cons] at h
        simpa [hx] using h
      obtain ⟨pre, lf, post, heq, hpre, hlf, hrepl⟩ := ih hxs
      refine ⟨x :: pre, lf, post, by simp [heq], ?_, hlf, ?_⟩
      · intro l hl
        rcases List.mem_cons.mp hl with rfl | hl2
        · simpa using hx
        · exact hpre l hl2
      · intro hstrip
        unfold replacerAux
        rw [if_neg (by simp [hx])]
        rw [hrepl hstrip]
        simp

theorem hA_of_min (lf : String) (pre post : List Char)
    (hs : splitAtFirst "sysroot_linux-64".toList lf.toList = some (pre, post)) :
    ∀ (nl : List Char) (i : Nat), i < pre.length →
      leadsWith "sysroot_linux-64".toList
        (((pre ++ stdlibJinjaChars) ++ nl).drop i) = false := by
  intro nl i hi
  have hmin := splitAtFirst_min "sysroot_linux-64".toList lf.toList pre post hs i hi
  have heq := splitAtFirst_eq "sysroot_linux-64".toList lf.toList pre post hs
  rw [heq, List.append_assoc,
    List.drop_append_of_le_length (Nat.le_of_lt hi)] at hmin
  rw [List.append_assoc, List.drop_append_of_le_length (Nat.le_of_lt hi)]
  exact region_no_lead "sysroot_linux-64".toList (pre.drop i) _
    (stdlibJinjaChars ++ nl) lbr hmin rfl lbr_not_mem_sysroot

theorem replacerLine_toList (to_that : String) (lf : String) (pre post : List Char)
    (hs : splitAtFirst "sysroot_linux-64".toList lf.toList = some (pre, post)) :
    (replacerLine to_that lf).toList =
      (pre ++ to_that.toList) ++
        (if lf.toList.getLast? = some '\n' then ['\n'] else []) := by
  unfold replacerLine
  rw [hs]
  by_cases hnl : lf.toList.getLast? = some '\n'
  · rw [if_pos hnl, if_pos hnl]
    rfl
  · rw [if_neg hnl, if_neg hnl]
    show (pre ++ to_that.toList) ++ ([] : List Char) = _
    simp

theorem replaced_line_pack (lf : String)
    (hlf : strContains "sysroot_linux-64" lf = true) :
    pat_stdlib_search (replacerLine stdlibJinja lf) = true ∧
    stripEmpty (replacerLine stdlibJinja lf) = false ∧
    strContains "sysroot_linux-64" (replacerLine stdlibJinja lf) = false := by
  have hsome : (splitAtFirst "sysroot_linux-64".toList lf.toList).isSome = true := by
    rw [splitAtFirst_isSome]
    exact hlf
  cases hs : splitAtFirst "sysroot_linux-64".toList lf.toList with
  | none => rw [hs] at hsome; simp at hsome
  | some p =>
    obtain ⟨pre, post⟩ := p
    have htl := replacerLine_toList stdlibJinja lf pre post hs
    have htl' : (replacerLine stdlibJinja lf).toList =
        pre ++ (stdlibJinjaChars ++
          (if lf.toList.getLast? = some '\n' then ['\n'] else [])) := by
      rw [htl]
      show (pre ++ stdlibJinjaChars) ++ _ = _
      rw [List.append_assoc]
    refine ⟨pat_stdlib_of_toList _ pre _ htl',
      stripEmpty_stdlib _ pre _ htl', ?_⟩
    show containsL "sysroot_linux-64".toList (replacerLine stdlibJinja lf).toList = false
    rw [htl']
    rw [← List.append_assoc]
    apply containsL_block_false pre _ (hA_of_min lf pre post hs _)
    by_cases hnl : lf.toList.getLast? = some '\n'
    · rw [if_pos hnl]; exact sysroot_split_newline
    · rw [if_neg hnl]; exact sysroot_split_nil

theorem sysroot_branch_filter (lines : List String)
    (h : lines.any pat_sysroot_search = true) :
    stdlib_filter (replacer (replacer lines stdlibJinja (some 1)) "" none) = true := by
  have hany : lines.any (fun l => strContains "sysroot_linux-64" l) = true := by
    rw [List.any_eq_true] at h ⊢
    obtain ⟨l, hmem, hp⟩ := h
    exact ⟨l, hmem, sysroot_contains l hp⟩
  obtain ⟨pre, lf, post, heq, hpre, hlf, hrepl⟩ :=
    replacer_first stdlibJinja lines hany
  obtain ⟨hpat, hstrip, hfree⟩ := replaced_line_pack lf hlf
  have h1 : replacer lines stdlibJinja (some 1) =
      pre ++ replacerLine stdlibJinja lf :: post := by
    unfold replacer
    exact hrepl hstrip
  have hmem1 : replacerLine stdlibJinja lf ∈ replacer lines stdlibJinja (some 1) := by
    rw [h1]
    simp
  have hmem2 : replacerLine stdlibJinja lf ∈
      replacer (replacer lines stdlibJinja (some 1)) "" none :=
    replacer_keeps "" none _ _ hmem1 hfree
  have hany2 : (replacer (replacer lines stdlibJinja (some 1)) "" none).any
      pat_stdlib_search = true :=
    List.any_eq_true.mpr ⟨_, hmem2, hpat⟩
  unfold stdlib_filter
  simp [hany2]

theorem takeWhile_all {α : Type} (p : α → Bool) (l : List α) :
    (l.takeWhile p).all p = true := by
  rw [List.all_eq_true]
  intro x hx
  exact List.mem_takeWhile_imp hx

theorem isPySpace_ne_s (c : Char) (h : isPySpace c = true) : c ≠ 's' := by
  intro hc
  subst hc
  exact absurd h (by decide)

theorem matchCompilerAux_indent_ws (langs : List String) (cs : List Char)
    (ind : String) (sel : Option String)
    (h : matchCompilerAux langs cs = some (ind, sel)) :
    ind.toList.all isPySpace = true := by
  unfold matchCompilerAux at h
  dsimp only at h
  have hgoal : ind = String.mk (cs.takeWhile isPySpace) := by
    repeat' split at h
    all_goals (cases h)
    all_goals rfl
  rw [hgoal]
  show (cs.takeWhile isPySpace).all isPySpace = true
  exact takeWhile_all isPySpace cs

theorem scanStep_ws (i : Nat) (line : String) (st st' : ScanState) (stop : Bool)
    (hst : st.indentsWS) (h : scanStep i line st = .ok (st', stop)) :
    st'.indentsWS := by
  unfold scanStep at h
  by_cases h1 : secHeaderMatch "build" line = true
  · rw [if_pos h1] at h; cases h; exact hst
  rw [if_neg h1] at h
  by_cases h2 : compilerSearch langsC line = true
  · rw [if_pos h2] at h
    cases hm : compilerMatch langsC line with
    | none => rw [hm] at h; cases h
    | some p =>
      obtain ⟨ind, sel⟩ := p
      rw [hm] at h
      cases h
      exact ⟨matchCompilerAux_indent_ws langsC line.toList ind sel hm,
        hst.2.1, hst.2.2⟩
  rw [if_neg h2] at h
  by_cases h3 : compilerSearch langsM2c line = true
  · rw [if_pos h3] at h
    cases hm : compilerMatch langsM2c line with
    | none => rw [hm] at h; cases h
    | some p =>
      obtain ⟨ind, sel⟩ := p
      rw [hm] at h
      cases h
      exact ⟨hst.1, matchCompilerAux_indent_ws langsM2c line.toList ind sel hm,
        hst.2.2⟩
  rw [if_neg h3] at h
  by_cases h4 : compilerSearch langsOther line = true
  · rw [if_pos h4] at h
    cases hm : compilerMatch langsOther line with
    | none => rw [hm] at h; cases h
    | some p =>
      obtain ⟨ind, sel⟩ := p
      rw [hm] at h
      cases h
      exact ⟨hst.1, hst.2.1,
        matchCompilerAux_indent_ws langsOther line.toList ind sel hm⟩
  rw [if_neg h4] at h
  by_cases h5 : secHeaderMatch "host" line = true
  · rw [if_pos h5] at h; cases h; exact hst
  rw [if_neg h5] at h
  by_cases h6 : secHeaderMatch "run" line = true
  · rw [if_pos h6] at h; cases h; exact hst
  rw [if_neg h6] at h
  by_cases h7 : secHeaderMatch "run_constrained" line = true
  · rw [if_pos h7] at h; cases h; exact hst
  rw [if_neg h7] at h
  by_cases h8 : secHeaderMatch "test" line = true
  · rw [if_pos h8] at h; cases h; exact hst
  rw [if_neg h8] at h
  by_cases h9 : st.lastWasBuild = true
  · rw [if_pos h9] at h
    by_cases h10 : nonreqKeyMatch line = true
    · rw [if_pos h10] at h; cases h; exact hst
    · rw [if_neg h10] at h; cases h; exact hst
  · rw [if_neg h9] at h; cases h; exact hst

theorem scanFrom_ws : ∀ (lines : List String) (i : Nat) (st : ScanState)
    (st' : ScanState), st.indentsWS → scanFrom i st lines = .ok st' →
    st'.indentsWS := by
  intro lines
  induction lines with
  | nil =>
    intro i st st' hst h
    unfold scanFrom at h
    cases h
    exact hst
  | cons l rest ih =>
    intro i st st' hst h
    unfold scanFrom at h
    simp only [Bind.bind, Except.bind] at h
    cases hs : scanStep i l st with
    | error e => rw [hs] at h; cases h
    | ok p =>
      obtain ⟨st1, stop⟩ := p
      rw [hs] at h
      dsimp only at h
      have hws1 := scanStep_ws i l st st1 stop hst hs
      by_cases hstop : stop = true
      · rw [if_pos hstop] at h; cases h; exact hws1
      · rw [if_neg hstop] at h
        exact ih (i + 1) st1 st' hws1 h

theorem scanSection_ws (lines : List String) (st : ScanState)
    (h : scanSection lines = .ok st) : st.indentsWS :=
  scanFrom_ws lines 0 ScanState.init st ⟨rfl, rfl, rfl⟩ h

theorem self_mem_insertAt (l : List String) (i : Nat) (x : String) :
    x ∈ insertAt l i x := by
  unfold insertAt
  simp

theorem mem_insertAt_of_mem (l : List String) (i : Nat) (x y : String)
    (h : y ∈ l) : y ∈ insertAt l i x := by
  unfold insertAt
  rw [← List.take_append_drop i l] at h
  rcases List.mem_append.1 h with h1 | h1
  · exact List.mem_append.2 (Or.inl (List.mem_append.2 (Or.inl h1)))
  · exact List.mem_append.2 (Or.inr h1)

theorem leadsWith_cons_ne (p c : Char) (ps cs : List Char) (h : p ≠ c) :
    leadsWith (p :: ps) (c :: cs) = false := by
  simp [leadsWith, h]

theorem hA_of_noS (A : List Char) (hA : ∀ c ∈ A, c ≠ 's') (tail : List Char) :
    ∀ i, i < A.length → leadsWith "sysroot_linux-64".toList
      (((A ++ stdlibJinjaChars) ++ tail).drop i) = false := by
  intro i hi
  rw [List.append_assoc, List.drop_append_of_le_length (Nat.le_of_lt hi)]
  cases hd : A.drop i with
  | nil =>
    exfalso
    have := congrArg List.length hd
    simp at this
    omega
  | cons c cs =>
    have hc : c ∈ A := by
      have : c ∈ A.drop i := by rw [hd]; exact List.mem_cons_self c cs
      exact List.mem_of_mem_drop this
    rw [List.cons_append]
    show leadsWith ('s' :: "ysroot_linux-64".toList) (c :: _) = false
    exact leadsWith_cons_ne 's' c _ _ (Ne.symm (hA c hc))

theorem insert_survives (lines2 : List String) (s : String) (A tail : List Char)
    (hmem : s ∈ lines2)
    (htl : s.toList = A ++ (stdlibJinjaChars ++ tail))
    (hA : ∀ i, i < A.length → leadsWith "sysroot_linux-64".toList
      (((A ++ stdlibJinjaChars) ++ tail).drop i) = false) :
    (replacerAux "" none lines2).any pat_stdlib_search = true := by
  by_cases hc : strContains "sysroot_linux-64" s = true
  · have hsome := splitAtFirst_isSome "sysroot_linux-64".toList s.toList
    have hc' : containsL "sysroot_linux-64".toList s.toList = true := hc
    rw [hc'] at hsome
    cases hs : splitAtFirst "sysroot_linux-64".toList s.toList with
    | none => rw [hs] at hsome; simp at hsome
    | some p =>
      obtain ⟨pre, post⟩ := p
      have hs' := hs
      rw [htl, ← List.append_assoc, splitAtFirst_block A tail hA] at hs'
      cases ht : splitAtFirst "sysroot_linux-64".toList tail with
      | none => rw [ht] at hs'; simp at hs'
      | some q =>
        obtain ⟨p2, q2⟩ := q
        rw [ht] at hs'
        simp only [Option.map] at hs'
        injection hs' with hs2
        injection hs2 with hpre hpost
        have htl2 := replacerLine_toList "" s pre post hs
        have htl3 : (replacerLine "" s).toList =
            A ++ (stdlibJinjaChars ++
              (p2 ++ (if s.toList.getLast? = some '\n' then ['\n'] else []))) := by
          rw [htl2, ← hpre]
          simp [List.append_assoc]
        have hpat := pat_stdlib_of_toList _ A _ htl3
        have hstrip := stripEmpty_stdlib _ A _ htl3
        have hmem2 := replacer_mem_replaced "" lines2 s hmem hc hstrip
        exact List.any_eq_true.mpr ⟨_, hmem2, hpat⟩
  · have hfree : strContains "sysroot_linux-64" s = false := by
      cases hq : strContains "sysroot_linux-64" s
      · rfl
      · exact absurd hq hc
    have hmem2 := replacer_keeps "" none lines2 s hmem hfree
    have hpat := pat_stdlib_of_toList s A _ htl
    exact List.any_eq_true.mpr ⟨_, hmem2, hpat⟩

theorem ws_no_s (l : List Char) (h : l.all isPySpace = true) :
    ∀ c ∈ l, c ≠ 's' := fun c hc =>
  isPySpace_ne_s c (List.all_eq_true.mp h c hc)

theorem pyOrStr_all (p : Char → Bool) (a b : String)
    (ha : a.toList.all p = true) (hb : b.toList.all p = true) :
    (pyOrStr a b).toList.all p = true := by
  unfold pyOrStr
  by_cases h : a = ""
  · rw [if_pos h]; exact hb
  · rw [if_neg h]; exact ha

theorem fallback_indent_ws (l0 : String) :
    (String.mk (((l0.toList.dropLast).takeWhile
        (fun c => isPySpace c || c = '-')).map
      (fun c => if c = '-' then ' ' else c)) ++ "    ").toList.all
      isPySpace = true := by
  show ((((l0.toList.dropLast).takeWhile (fun c => isPySpace c || c = '-')).map
      (fun c => if c = '-' then ' ' else c)) ++ "    ".toList).all
      isPySpace = true
  rw [List.all_eq_true]
  intro x hx
  rcases List.mem_append.1 hx with h1 | h1
  · obtain ⟨c, hc, hfc⟩ := List.mem_map.1 h1
    have hcw := List.mem_takeWhile_imp hc
    by_cases hdash : c = '-'
    · rw [← hfc, if_pos hdash]; decide
    · rw [← hfc, if_neg hdash]
      simp only [Bool.or_eq_true, decide_eq_true_eq] at hcw
      rcases hcw with h2 | h2
      · exact h2
      · exact absurd h2 hdash
  · have hx' : x = ' ' := by simpa using h1
    rw [hx']
    decide

theorem insert0_toList (indent sel : String) :
    (indent ++ stdlibDecl ++ sel ++ "\n").toList =
      (indent.toList ++ ['-', ' ']) ++
        (stdlibJinjaChars ++ (sel.toList ++ ['\n'])) := by
  show ((indent.toList ++ ('-' :: ' ' :: stdlibJinjaChars)) ++ sel.toList)
      ++ ['\n'] = _
  simp [List.append_assoc]

theorem insert0_A_no_s (indent : String)
    (hws : indent.toList.all isPySpace = true) :
    ∀ c ∈ indent.toList ++ ['-', ' '], c ≠ 's' := by
  intro c hc
  rcases List.mem_append.1 hc with h1 | h1
  · exact ws_no_s indent.toList hws c h1
  · have : c = '-' ∨ c = ' ' := by simpa using h1
    rcases this with rfl | rfl <;> decide

theorem to_insert0_survives (indent sel : String) (lines2 : List String)
    (hws : indent.toList.all isPySpace = true)
    (hmem : (indent ++ stdlibDecl ++ sel ++ "\n") ∈ lines2) :
    (replacerAux "" none lines2).any pat_stdlib_search = true :=
  insert_survives lines2 _ (indent.toList ++ ['-', ' '])
    (sel.toList ++ ['\n']) hmem (insert0_toList indent sel)
    (hA_of_noS _ (insert0_A_no_s indent hws) _)

theorem insert_build_toList (indent sel : String) :
    (String.mk indent.toList.dropLast.dropLast ++ "build:\n" ++
      (indent ++ stdlibDecl ++ sel ++ "\n")).toList =
      (indent.toList.dropLast.dropLast ++
        ("build:\n".toList ++ (indent.toList ++ ['-', ' ']))) ++
        (stdlibJinjaChars ++ (sel.toList ++ ['\n'])) := by
  show (indent.toList.dropLast.dropLast ++ "build:\n".toList) ++
      (((indent.toList ++ ('-' :: ' ' :: stdlibJinjaChars)) ++ sel.toList)
        ++ ['\n']) = _
  simp [List.append_assoc]

theorem insert_build_A_no_s (indent : String)
    (hws : indent.toList.all isPySpace = true) :
    ∀ c ∈ indent.toList.dropLast.dropLast ++
      ("build:\n".toList ++ (indent.toList ++ ['-', ' '])), c ≠ 's' := by
  intro c hc
  rcases List.mem_append.1 hc with h1 | h1
  · have hmem : c ∈ indent.toList :=
      List.dropLast_subset _ (List.dropLast_subset _ h1)
    exact ws_no_s indent.toList hws c hmem
  · rcases List.mem_append.1 h1 with h2 | h2
    · have : c ∈ ['b', 'u', 'i', 'l', 'd', ':', '\n'] := h2
      intro hcs
      rw [hcs] at this
      exact absurd this (by decide)
    · exact insert0_A_no_s indent hws c h2

theorem to_insert_build_survives (indent sel : String) (lines2 : List String)
    (hws : indent.toList.all isPySpace = true)
    (hmem : (String.mk indent.toList.dropLast.dropLast ++ "build:\n" ++
      (indent ++ stdlibDecl ++ sel ++ "\n")) ∈ lines2) :
    (replacerAux "" none lines2).any pat_stdlib_search = true :=
  insert_survives lines2 _ _ (sel.toList ++ ['\n']) hmem
    (insert_build_toList indent sel)
    (hA_of_noS _ (insert_build_A_no_s indent hws) _)

theorem stdlib_filter_of_any (L : List String)
    (h : L.any pat_stdlib_search = true) : stdlib_filter L = true := by
  unfold stdlib_filter
  rw [h]
  rfl

theorem ps_needs (st : ScanState) (lines out : List String) (cbc : Bool)
    (indent : String)
    (hiws : indent.toList.all isPySpace = true)
    (h : (if firstNonzero [st.lineHost, st.lineRun, st.lineConstrain,
            st.lineTest] = 0 then
          (Except.error "Do not know where to insert build section!" :
            Except String (List String × Bool))
        else
          let line_compiler := firstNonzero [st.lineCompilerC,
            st.lineCompilerM2c, st.lineCompilerOther]
          let selector0 := pyOrStr (pyOrStr st.selectorC st.selectorM2c)
            st.selectorOther
          let selector1 := if selector0 = "" then "" else "  " ++ selector0
          let to_insert0 := indent ++ stdlibDecl ++ selector1 ++ "\n"
          let to_insert :=
            if st.lineBuild = 0 then
              String.mk indent.toList.dropLast.dropLast ++ "build:\n" ++
                to_insert0
            else to_insert0
          let line_insert :=
            if line_compiler ≠ 0 then line_compiler + 1
            else firstNonzero [st.lineHost, st.lineRun, st.lineConstrain,
              st.lineTest]
          let lines1 := insertAt lines line_insert to_insert
          let lines2 :=
            if st.lineCompilerC ≠ 0 && st.lineCompilerM2c ≠ 0 then
              let sel_m2c :=
                if st.selectorM2c = "" then "" else "        " ++ st.selectorM2c
              let ti2 := indent ++ stdlibDecl ++ sel_m2c ++ "\n"
              let li2 := st.lineCompilerM2c + 1 +
                (if st.lineCompilerC < st.lineCompilerM2c then 1 else 0)
              insertAt lines1 li2 ti2
            else lines1
          Except.ok (replacer lines2 "" none,
            lines2.any pat_sysroot_search)) = .ok (out, cbc)) :
    stdlib_filter out = true := by
  by_cases hli : firstNonzero [st.lineHost, st.lineRun, st.lineConstrain,
      st.lineTest] = 0
  · rw [if_pos hli] at h
    cases h
  · rw [if_neg hli] at h
    dsimp only at h
    by_cases hboth : (decide (st.lineCompilerC ≠ 0) &&
        decide (st.lineCompilerM2c ≠ 0)) = true
    · rw [if_pos hboth] at h
      by_cases hb0 : st.lineBuild = 0
      · rw [if_pos hb0] at h
        cases h
        apply stdlib_filter_of_any
        apply to_insert_build_survives indent _ _ hiws
        exact mem_insertAt_of_mem _ _ _ _ (self_mem_insertAt lines _ _)
      · rw [if_neg hb0] at h
        cases h
        apply stdlib_filter_of_any
        apply to_insert0_survives indent _ _ hiws
        exact mem_insertAt_of_mem _ _ _ _ (self_mem_insertAt lines _ _)
    · rw [if_neg hboth] at h
      by_cases hb0 : st.lineBuild = 0
      · rw [if_pos hb0] at h
        cases h
        apply stdlib_filter_of_any
        apply to_insert_build_survives indent _ _ hiws
        exact self_mem_insertAt lines _ _
      · rw [if_neg hb0] at h
        cases h
        apply stdlib_filter_of_any
        apply to_insert0_survives indent _ _ hiws
        exact self_mem_insertAt lines _ _

theorem ps_key (attrs : MetaYamlAttrs) (lines out : List String)
    (cbc : Bool) (reqs : Reqs)
    (h : (do
      let build_reqs := reqs.build
      let global_build_reqs := attrs.requirements.build
      let needs0 := build_reqs.any (fun x => pat_stub_search (x.getD ""))
      let needs1 := needs0 ||
        (build_reqs.isEmpty &&
          global_build_reqs.any (fun x => pat_stub_search (x.getD "")))
      let st ← scanSection lines
      let needs2 := needs1 ||
        (st.lineBuild ≠ 0 &&
          (pySlice lines st.lineBuild
            (let s := firstNonzero [st.lineHost, st.lineRun, st.lineConstrain,
                                    st.lineTest]
             if s = 0 then (-1 : Int) else (s : Int))).any
            (fun l => compilerSearch langsAny l))
      if ¬ needs2 then
        if lines.any pat_sysroot_search then
          let lines1 := replacer lines stdlibJinja (some 1)
          let lines2 := replacer lines1 "" none
          return (lines2, true)
        else
          return (lines, false)
      else
        let line_compiler := firstNonzero [st.lineCompilerC, st.lineCompilerM2c,
                                           st.lineCompilerOther]
        let indent0 := pyOrStr (pyOrStr st.indentC st.indentM2c) st.indentOther
        let selector0 := pyOrStr (pyOrStr st.selectorC st.selectorM2c)
          st.selectorOther
        let indent ←
          if indent0 = "" then
            match lines.head? with
            | none => .error "IndexError: list index out of range"
            | some l0 =>
              .ok (String.mk
                (((l0.toList.dropLast).takeWhile
                    (fun c => isPySpace c || c = '-')).map
                  (fun c => if c = '-' then ' ' else c)) ++ "    ")
          else
            .ok indent0
        let selector1 := if selector0 = "" then "" else "  " ++ selector0
        let to_insert0 := indent ++ stdlibDecl ++ selector1 ++ "\n"
        let to_insert :=
          if st.lineBuild = 0 then
            String.mk indent.toList.dropLast.dropLast ++ "build:\n" ++
              to_insert0
          else to_insert0
        let line_insert0 := firstNonzero [st.lineHost, st.lineRun,
                                          st.lineConstrain, st.lineTest]
        if line_insert0 = 0 then
          .error "Do not know where to insert build section!"
        else
          let line_insert :=
            if line_compiler ≠ 0 then line_compiler + 1 else line_insert0
          let lines1 := insertAt lines line_insert to_insert
          let lines2 :=
            if st.lineCompilerC ≠ 0 && st.lineCompilerM2c ≠ 0 then
              let sel_m2c :=
                if st.selectorM2c = "" then "" else "        " ++ st.selectorM2c
              let ti2 := indent ++ stdlibDecl ++ sel_m2c ++ "\n"
              let li2 := st.lineCompilerM2c + 1 +
                (if st.lineCompilerC < st.lineCompilerM2c then 1 else 0)
              insertAt lines1 li2 ti2
            else lines1
          let cbc := lines2.any pat_sysroot_search
          let lines3 := replacer lines2 "" none
          return (lines3, cbc) : Except String (List String × Bool)) =
      .ok (out, cbc)) :
    stdlib_filter out = true ∨ out = lines := by
  simp only [Bind.bind, Except.bind] at h
  cases hst : scanSection lines with
  | error e => rw [hst] at h; cases h
  | ok st =>
  rw [hst] at h
  dsimp only at h
  have hws := scanSection_ws lines st hst
  by_cases hn : (((reqs.build.any fun x => pat_stub_search (x.getD "")) ||
      (reqs.build.isEmpty &&
        (attrs.requirements.build.any fun x => pat_stub_search (x.getD "")))) ||
      (decide (st.lineBuild ≠ 0) &&
        ((pySlice lines st.lineBuild
            (if firstNonzero [st.lineHost, st.lineRun, st.lineConstrain,
                st.lineTest] = 0 then (-1 : Int)
             else (firstNonzero [st.lineHost, st.lineRun, st.lineConstrain,
                st.lineTest] : Int))).any
          fun l => compilerSearch langsAny l))) = true
  · rw [if_neg (not_not_intro hn)] at h
    by_cases hind : pyOrStr (pyOrStr st.indentC st.indentM2c) st.indentOther = ""
    · rw [if_pos hind] at h
      cases hhd : lines.head? with
      | none => rw [hhd] at h; cases h
      | some l0 =>
        rw [hhd] at h
        dsimp only at h
        exact Or.inl (ps_needs st lines out cbc _ (fallback_indent_ws l0) h)
    · rw [if_neg hind] at h
      have hiws : (pyOrStr (pyOrStr st.indentC st.indentM2c)
          st.indentOther).toList.all isPySpace = true :=
        pyOrStr_all isPySpace _ _
          (pyOrStr_all isPySpace _ _ hws.1 hws.2.1) hws.2.2
      exact Or.inl (ps_needs st lines out cbc _ hiws h)
  · rw [if_pos hn] at h
    by_cases hsys : lines.any pat_sysroot_search = true
    · rw [if_pos hsys] at h
      cases h
      exact Or.inl (sysroot_branch_filter lines hsys)
    · rw [if_neg hsys] at h
      cases h
      exact Or.inr rfl

/-- **C3 (counterexample to the claim as stated).**  A document whose only
compiler declaration sits in the `host:` section (and whose parsed build
requirements hold no compiler stub) makes `_process_section` return its
input unchanged, yet `StdlibMigrator.filter` does **not** reject that
output: the document still has a compiler line and no stdlib declaration,
so the filter returns `False` ("migrate").  Hence "the patcher's own output
is rejected by the filter" fails for this document. -/
theorem filter_not_rejecting_unchanged_output :
    process_section "global" ⟨[], ⟨[]⟩⟩
        ["requirements:\n", "  host:\n",
         "    - \x7b\x7b compiler(\"c\") \x7d\x7d\n"] =
      .ok (["requirements:\n", "  host:\n",
            "    - \x7b\x7b compiler(\"c\") \x7d\x7d\n"], false) ∧
    stdlib_filter
        ["requirements:\n", "  host:\n",
         "    - \x7b\x7b compiler(\"c\") \x7d\x7d\n"] = false :=
  ⟨rfl, rfl⟩

/-- **C3 (corrected).**  Idempotence of the structural patcher through its
pre-check filter, in the amended form: whenever `_process_section` succeeds,
its output is either rejected by `StdlibMigrator.filter` (because a stdlib
declaration line was inserted, or the sysroot pin was rewritten into one),
or the output is the unchanged input.  In both cases a second application
of the patcher is a no-op on the lines it would change — but the "rejected
by the filter" justification of the claim is wrong for the unchanged-input
case, as `filter_not_rejecting_unchanged_output` shows. -/
theorem patcher_output_filtered_or_unchanged (name : String)
    (attrs : MetaYamlAttrs) (lines out : List String) (cbc : Bool)
    (h : process_section name attrs lines = .ok (out, cbc)) :
    stdlib_filter out = true ∨ out = lines := by
  unfold process_section at h
  by_cases hname : name = "global"
  · rw [if_pos hname] at h
    exact ps_key attrs lines out cbc attrs.requirements h
  · rw [if_neg hname] at h
    cases hout : attrs.outputs.filter (fun o => o.name = name) with
    | nil =>
      rw [hout] at h
      simp only [Bind.bind, Except.bind] at h
      cases h
    | cons o os =>
      rw [hout] at h
      exact ps_key attrs lines out cbc o.requirements h

theorem patcher_output_filtered_or_unchanged_witness :
    stdlib_filter
        ["requirements:\n", "  host:\n",
         "    - \x7b\x7b compiler(\"c\") \x7d\x7d\n"] = true ∨
      ["requirements:\n", "  host:\n",
       "    - \x7b\x7b compiler(\"c\") \x7d\x7d\n"] =
        ["requirements:\n", "  host:\n",
         "    - \x7b\x7b compiler(\"c\") \x7d\x7d\n"] :=
  patcher_output_filtered_or_unchanged "global" ⟨[], ⟨[]⟩⟩
    ["requirements:\n", "  host:\n",
     "    - \x7b\x7b compiler(\"c\") \x7d\x7d\n"]
    ["requirements:\n", "  host:\n",
     "    - \x7b\x7b compiler(\"c\") \x7d\x7d\n"] false rfl

